import Mathlib

/-!
Jooki token codec (`client/src/cmdhfjooki.c`).

A shallow embedding of the Jooki figurine token codec of the proxmark3 client:
the keyed XOR cipher of `jooki_encode` / `jooki_decode`, the NDEF message
template of `jooki_create_ndef`, and the compiled-in tables `jooks`,
`jooks_figures` and `NFC_SECRET`.

Conventions of the embedding:
* a `uint8_t` is a `Nat` below 256; a C buffer is the `List Nat` of the bytes
  readable from the pointer on; a pointer that the source tests against `NULL`
  is an `Option` of such a buffer (`none` is `NULL`);
* a function that writes through a pointer returns the new contents of the
  buffer next to its status;
* `PrintAndLogEx` only logs and is left out.
-/

namespace Jooki

/-! ## Status codes and libc helpers -/

/-- Modelled from the spec: the success status `PM3_SUCCESS`, whose definition
(`pm3_cmd.h`) is not part of the source file; the spec calls it "success". -/
def PM3_SUCCESS : Int := 0

/-- Modelled from the spec: the invalid-argument status `PM3_EINVARG`, whose
definition (`pm3_cmd.h`) is not part of the source file; the spec calls it
`InvalidArgument`, a failure code distinct from success. -/
def PM3_EINVARG : Int := -2

/-- The libc call `memcpy(dst + off, src, n)` on buffers:
the `n` bytes at `off` are replaced by the first `n` bytes of `src`
(`src` holding at least `n` bytes and `dst` at least `off + n`, as C requires). -/
def memcpy (dst : List Nat) (off : Nat) (src : List Nat) (n : Nat) : List Nat :=
  dst.take off ++ src.take n ++ dst.drop (off + n)

/-- The libc call `strlen`: number of bytes before the first NUL. -/
def strlen : List Nat → Nat
  | [] => 0
  | c :: cs => if c = 0 then 0 else strlen cs + 1

/-- A C string literal stored in a `char[n]`: the bytes of the text, then NULs. -/
def cstr (s : String) (n : Nat) : List Nat :=
  s.toList.map Char.toNat ++ List.replicate (n - s.length) 0

/-! ## Tables of the source -/

/-- The struct `jooki_t`. -/
structure jooki_t where
  uid : List Nat
  b64 : List Nat
  tagtype : Nat
deriving DecidableEq

/-- The sample set `jooks` used by the self-test. -/
def jooks : List jooki_t := [
  { uid := [0x04, 0xDA, 0xB7, 0x6A, 0xE7, 0x4C, 0x80], b64 := cstr "ruxow8lnn88uyeX+" 17, tagtype := 0x00 },
  { uid := [0x04, 0xf0, 0x22, 0xc2, 0x33, 0x5e, 0x80], b64 := cstr "" 17, tagtype := 0x00 },
  { uid := [0x04, 0x8C, 0xEC, 0xDA, 0xF0, 0x4A, 0x80], b64 := cstr "ONrsVf7jX6IaSNV6" 17, tagtype := 0x01 },
  { uid := [0x04, 0x92, 0xA7, 0x6A, 0xE7, 0x4C, 0x81], b64 := cstr "Hjjpcx/mZwuveTF+" 17, tagtype := 0x02 },
  { uid := [0x04, 0xD0, 0xB0, 0x3A, 0xD3, 0x63, 0x80], b64 := cstr "" 17, tagtype := 0x02 },
  { uid := [0x04, 0x96, 0x42, 0xDA, 0xF0, 0x4A, 0x80], b64 := cstr "vEWy0WO9wZNEzEok" 17, tagtype := 0x03 },
  { uid := [0x04, 0x33, 0xb5, 0x62, 0x39, 0x4d, 0x80], b64 := cstr "" 17, tagtype := 0x03 },
  { uid := [0x04, 0x17, 0xB7, 0x3A, 0xD3, 0x63, 0x81], b64 := cstr "f0axEma+g2WnLGAm" 17, tagtype := 0x05 },
  { uid := [0x04, 0x84, 0x27, 0x6A, 0xE7, 0x4C, 0x80], b64 := cstr "VZB/OLBwOiM5Mpnp" 17, tagtype := 0x05 },
  { uid := [0x04, 0x28, 0xF4, 0xDA, 0xF0, 0x4A, 0x81], b64 := cstr "7WzlgEzqLgwTnWNy" 17, tagtype := 0x05 } ]

/-- The label table `jooks_figures`. -/
def jooks_figures : List String := ["Dragon", "Fox", "Ghost", "Knight", "?", "Whale"]

/-- The cipher key `NFC_SECRET` (13 bytes, of which the cipher reads 12). -/
def NFC_SECRET : List Nat :=
  [0x03, 0x9c, 0x25, 0x6f, 0xb9, 0x2e, 0xe8, 0x08, 0x09, 0x83, 0xd9, 0x33, 0x56]

/-- The macro `JOOKI_UID_LEN`. -/
def JOOKI_UID_LEN : Nat := 7

/-- The macro `JOOKI_IV_LEN`. -/
def JOOKI_IV_LEN : Nat := 4

/-- The macro `JOOKI_B64_LEN`. -/
def JOOKI_B64_LEN : Nat := 16 + 1

/-- The macro `JOOKI_PLAIN_LEN`. -/
def JOOKI_PLAIN_LEN : Nat := 12

/-! ## Printable encoder (base64) -/

/-- Modelled from the spec: the standard base64 alphabet (`A-Z`, `a-z`, `0-9`,
`+`, `/`) of the printable encoder; `base64.c` is not part of the source file. -/
def base64_enc_map : List Nat :=
  "ABCDEFGHIJKLMNOPQRSTUVWXYZabcdefghijklmnopqrstuvwxyz0123456789+/".toList.map Char.toNat

/-- Modelled from the spec: the character of a 6-bit digit in the standard
base64 alphabet. -/
def base64_enc_char (v : Nat) : Nat := base64_enc_map.getD v 0

/-- Modelled from the spec: the standard base64 text of a byte sequence, every
3 bytes giving 4 characters and a last group of 1 or 2 bytes being padded with
`=` (ASCII 61). -/
def base64_text : List Nat → List Nat
  | a :: b :: c :: rest =>
      base64_enc_char (a / 4) :: base64_enc_char ((a % 4) * 16 + b / 16) ::
      base64_enc_char ((b % 16) * 4 + c / 64) :: base64_enc_char (c % 64) :: base64_text rest
  | [a, b] =>
      [base64_enc_char (a / 4), base64_enc_char ((a % 4) * 16 + b / 16),
       base64_enc_char ((b % 16) * 4), 61]
  | [a] => [base64_enc_char (a / 4), base64_enc_char ((a % 4) * 16), 61, 61]
  | [] => []

/-- Modelled from the spec: the buffer-too-small error of the printable encoder
(`base64.c` is not part of the source file); the spec has every length
violation reported as an explicit error instead of an out-of-bounds write. -/
def MBEDTLS_ERR_BASE64_BUFFER_TOO_SMALL : Int := -0x002A

/-- Modelled from the spec: the `InvalidEncoding` error of the printable
decoder (`base64.c` is not part of the source file). -/
def MBEDTLS_ERR_BASE64_INVALID_CHARACTER : Int := -0x002C

/-- Modelled from the spec: `mbedtls_base64_encode(dst, dlen, &olen, src, slen)`
(`toPrintable`; `base64.c` is not part of the source file). The standard base64
text of the first `slen` bytes of `src` is written at the start of `dst`,
followed by a NUL, and `olen` is the length of the text; when `dst` cannot hold
it nothing is written. Returns `(status, olen, dst)`. -/
def mbedtls_base64_encode (dst : List Nat) (dlen : Nat) (src : List Nat) (slen : Nat) :
    Int × Nat × List Nat :=
  let text := base64_text (src.take slen)
  if dlen < text.length + 1 then
    (MBEDTLS_ERR_BASE64_BUFFER_TOO_SMALL, text.length + 1, dst)
  else
    (0, text.length, memcpy dst 0 (text ++ [0]) (text.length + 1))

/-- Modelled from the spec: the 6-bit digit of a character of the standard
base64 alphabet, `none` for a character outside it. -/
def base64_dec_value (c : Nat) : Option Nat :=
  if base64_enc_map.indexOf c < 64 then some (base64_enc_map.indexOf c) else none

/-- Modelled from the spec: the digits of a text, `none` as soon as one
character is outside the alphabet. -/
def base64_dec_digits : List Nat → Option (List Nat)
  | [] => some []
  | c :: cs =>
      match base64_dec_value c, base64_dec_digits cs with
      | some v, some vs => some (v :: vs)
      | _, _ => none

/-- Modelled from the spec: the bytes of a sequence of 6-bit digits (the
inverse of the grouping of `base64_text`); a last group of 2 or 3 digits gives
1 or 2 bytes. -/
def base64_dec_bytes : List Nat → List Nat
  | s0 :: s1 :: s2 :: s3 :: rest =>
      (s0 * 4 + s1 / 16) :: ((s1 % 16) * 16 + s2 / 4) :: ((s2 % 4) * 64 + s3) ::
        base64_dec_bytes rest
  | [s0, s1, s2] => [s0 * 4 + s1 / 16, (s1 % 16) * 16 + s2 / 4]
  | [s0, s1] => [s0 * 4 + s1 / 16]
  | _ => []

/-- Modelled from the spec: a text without its `=` padding (at most two
trailing `=`, ASCII 61). -/
def base64_strip_pad (text : List Nat) : List Nat :=
  let r := text.reverse
  match r with
  | 61 :: 61 :: rest => rest.reverse
  | 61 :: rest => rest.reverse
  | _ => text

/-- Modelled from the spec: `mbedtls_base64_decode(dst, dlen, &olen, src, slen)`
(`fromPrintable`; `base64.c` is not part of the source file). Only the first
`slen` characters of `src` are read; a character outside the alphabet gives
`InvalidEncoding`, a `dst` too small gives the buffer-too-small error, and in
both cases `dst` is left as it was; otherwise the decoded bytes are written at
the start of `dst`. Returns `(status, olen, dst)`. -/
def mbedtls_base64_decode (dst : List Nat) (dlen : Nat) (src : List Nat) (slen : Nat) :
    Int × Nat × List Nat :=
  match base64_dec_digits (base64_strip_pad (src.take slen)) with
  | none => (MBEDTLS_ERR_BASE64_INVALID_CHARACTER, 0, dst)
  | some ds =>
      let bytes := base64_dec_bytes ds
      if dlen < bytes.length then
        (MBEDTLS_ERR_BASE64_BUFFER_TOO_SMALL, bytes.length, dst)
      else
        (0, bytes.length, memcpy dst 0 bytes bytes.length)

/-! ## Record cipher -/

/-- The function `jooki_encode(iv, tagtype, uid, out)`; returns the status and
the contents of `out`. -/
def jooki_encode (iv : Option (List Nat)) (tagtype : Nat) (uid : Option (List Nat))
    (out : Option (List Nat)) : Int × Option (List Nat) :=
  match out with
  | none => (PM3_EINVARG, none)
  | some out =>
    let out := out.set 0 0x00
    match iv, uid with
    | some iv, some uid =>
      let d : List Nat := [iv.getD 0 0, iv.getD 1 0, iv.getD 2 0, iv.getD 3 0, tagtype,
        uid.getD 0 0, uid.getD 1 0, uid.getD 2 0, uid.getD 3 0, uid.getD 4 0, uid.getD 5 0,
        uid.getD 6 0]
      let enc : List Nat := List.replicate JOOKI_PLAIN_LEN 0
      let enc := (List.range JOOKI_PLAIN_LEN).foldl (fun enc i =>
        if i < 3 then
          enc.set i (d.getD i 0 ^^^ NFC_SECRET.getD i 0)
        else
          enc.set i (d.getD i 0 ^^^ NFC_SECRET.getD i 0 ^^^ d.getD (i % 3) 0)) enc
      let b64 : List Nat := List.replicate 20 0
      let r := mbedtls_base64_encode b64 20 enc JOOKI_PLAIN_LEN
      let b64len := r.2.1
      let b64 := r.2.2
      (PM3_SUCCESS, some (memcpy out 0 b64 b64len))
    | _, _ => (PM3_EINVARG, some out)

/-- The function `jooki_decode(b64, result)`; returns the status and the
contents of `result`. -/
def jooki_decode (b64 : List Nat) (result : List Nat) : Int × List Nat :=
  let ndef : List Nat := List.replicate JOOKI_PLAIN_LEN 0
  let ndef := (mbedtls_base64_decode ndef JOOKI_PLAIN_LEN b64 16).2.2
  let result := (List.range JOOKI_PLAIN_LEN).foldl (fun result i =>
    if i < 3 then
      result.set i (ndef.getD i 0 ^^^ NFC_SECRET.getD i 0)
    else
      result.set i (ndef.getD i 0 ^^^ NFC_SECRET.getD i 0 ^^^ ndef.getD (i % 3) 0 ^^^
        NFC_SECRET.getD (i % 3) 0)) result
  (PM3_SUCCESS, result)

/-! ## Message assembler -/

/-- The 31-byte string literal copied first by `jooki_create_ndef`. -/
def ndef_header : List Nat :=
  [0x01, 0x03, 0xa0, 0x0c, 0x34, 0x03, 0x29, 0xd1,
   0x01, 0x25, 0x55, 0x04, 0x73, 0x2e, 0x6a, 0x6f,
   0x6f, 0x6b, 0x69, 0x2e, 0x72, 0x6f, 0x63, 0x6b,
   0x73, 0x2f, 0x73, 0x2f, 0x3f, 0x73, 0x3d]

/-- The 5-byte string literal copied last by `jooki_create_ndef`. -/
def ndef_trailer : List Nat := [0x0a, 0xFE, 0x00, 0x00, 0x00]

/-- The function `jooki_create_ndef(b64ndef, ndefrecord)`; returns the status
and the contents of `ndefrecord`. -/
def jooki_create_ndef (b64ndef : List Nat) (ndefrecord : Option (List Nat)) :
    Int × Option (List Nat) :=
  match ndefrecord with
  | none => (PM3_EINVARG, none)
  | some ndefrecord =>
    let ndefrecord := memcpy ndefrecord 0 ndef_header 31
    let ndefrecord := memcpy ndefrecord 31 b64ndef 16
    let ndefrecord := memcpy ndefrecord 47 ndef_trailer 5
    (PM3_SUCCESS, some ndefrecord)

/-! ## Self-test -/

/-- What one iteration of the loop of `jooki_selftest` computes and reports for a
sample: the decoded fields, the two comparison flags, the label looked up in
`jooks_figures` (`none` when the index is outside the table), the re-encoded
token and the NDEF message built from it. -/
structure selftest_row where
  token : List Nat
  iv : List Nat
  tt : Nat
  figure : Option String
  tt_ok : Bool
  uid : List Nat
  uid_ok : Bool
  b64 : Option (List Nat)
  ndefmsg : Option (List Nat)
deriving DecidableEq

/-- The body of the loop of `jooki_selftest` for a sample with a non-empty token. -/
def jooki_selftest_body (j : jooki_t) : selftest_row :=
  let iv : List Nat := List.replicate JOOKI_IV_LEN 0
  let uid : List Nat := List.replicate JOOKI_UID_LEN 0
  let result : List Nat := List.replicate JOOKI_PLAIN_LEN 0
  let result := (jooki_decode j.b64 result).2
  let iv := memcpy iv 0 result 4
  let tt := result.getD 4 0
  let uid := memcpy uid 0 (result.drop 5) JOOKI_UID_LEN
  let tt_ok := decide (tt = j.tagtype)
  let uid_ok := decide (uid.take JOOKI_UID_LEN = j.uid.take JOOKI_UID_LEN)
  let b64 : List Nat := List.replicate JOOKI_B64_LEN 0
  let b64 := (jooki_encode (some iv) tt (some uid) (some b64)).2
  let ndefmsg : List Nat := List.replicate 52 0
  let ndefmsg := (jooki_create_ndef (b64.getD []) (some ndefmsg)).2
  { token := j.b64, iv := iv, tt := tt, figure := jooks_figures.get? tt, tt_ok := tt_ok,
    uid := uid, uid_ok := uid_ok, b64 := b64, ndefmsg := ndefmsg }

/-- The function `jooki_selftest`; returns the status and the rows it reported, in
order. The NDEF printers called on the assembled message are external and only
print. -/
def jooki_selftest : Int × List selftest_row :=
  let rows := jooks.foldl (fun rows j =>
    if strlen j.b64 = 0 then rows
    else rows ++ [jooki_selftest_body j]) []
  (PM3_SUCCESS, rows)

/-! ## Printing and the decode command -/

/-- What `jooki_printEx` prints: the token, the figurine code with the label
looked up in `jooks_figures` (`none` when the index is outside the table), the
iv, the uid and the NDEF message it assembles. -/
structure print_row where
  b64 : List Nat
  tt : Nat
  figure : Option String
  iv : List Nat
  uid : List Nat
  ndefmsg : Option (List Nat)
deriving DecidableEq

/-- The function `jooki_printEx(b64, iv, tt, uid, verbose)`; `verbose` only adds
the output of the external NDEF printers. -/
def jooki_printEx (b64 iv : List Nat) (tt : Nat) (uid : List Nat) (_verbose : Bool) :
    print_row :=
  let ndefmsg : List Nat := List.replicate 52 0
  let ndefmsg := (jooki_create_ndef b64 (some ndefmsg)).2
  { b64 := b64, tt := tt, figure := jooks_figures.get? tt, iv := iv, uid := uid,
    ndefmsg := ndefmsg }

/-- The function `jooki_print(b64, result, verbose)`; `none` when nothing is
printed. -/
def jooki_print (b64 result : Option (List Nat)) (verbose : Bool) : Option print_row :=
  match b64, result with
  | some b64, some result =>
    let iv : List Nat := List.replicate JOOKI_IV_LEN 0
    let uid : List Nat := List.replicate JOOKI_UID_LEN 0
    let iv := memcpy iv 0 result JOOKI_IV_LEN
    let tt := result.getD 4 0
    let uid := memcpy uid 0 (result.drop 5) JOOKI_UID_LEN
    some (jooki_printEx b64 iv tt uid verbose)
  | _, _ => none

/-- The command `CmdHF14AJookiDecode` after its arguments are parsed: `b64` is the
zeroed 17-byte buffer into which the command-line parser (external) copied at
most 16 characters of the `-d` argument. Returns the status and what was printed. -/
def CmdHF14AJookiDecode (b64 : List Nat) (verbose : Bool) : Int × Option print_row :=
  let result : List Nat := List.replicate JOOKI_PLAIN_LEN 0
  let r := jooki_decode b64 result
  let res := r.1
  let result := r.2
  if res = PM3_SUCCESS then
    (PM3_SUCCESS, jooki_print (some b64) (some result) verbose)
  else
    (PM3_SUCCESS, none)

/-- The self-test loop of `jooki_selftest` over a sample table: the rows reported,
in order. `jooki_selftest` runs it on `jooks`. -/
def jooki_selftest_loop (table : List jooki_t) : List selftest_row :=
  table.foldl (fun rows j =>
    if strlen j.b64 = 0 then rows
    else rows ++ [jooki_selftest_body j]) []

/-! ## The encode command -/

/-- What a run of `CmdHF14AJookiEncode` does: the status returned, the arguments
`(iv, tagtype, uid)` of every call of `jooki_encode` made, in order, and what
`jooki_printEx` printed for the encoded token (`none` when it was not reached). -/
structure encode_cmd_result where
  status : Int
  encode_calls : List (List Nat × Nat × List Nat)
  printed : Option print_row
deriving DecidableEq

/-- The command `CmdHF14AJookiEncode` after its arguments are parsed by the
command-line parser (external): `uid` is the zeroed 7-byte buffer filled from
`--uid`, `ulen` the number of bytes parsed into it, the booleans are the flags
`-r`, `-t`, `-v`, `--dragon`, `--fox`, `--ghost`, `--knight`, `--whale`.
`ul_read_uid` is the tag reader (hardware, external): it is given the uid buffer
and returns its status and the buffer it filled. -/
def CmdHF14AJookiEncode (ul_read_uid : List Nat → Int × List Nat) (uid : List Nat) (ulen : Int)
    (use_tag selftest verbose tt_dragon tt_fox tt_ghost tt_knight tt_whale : Bool) :
    encode_cmd_result :=
  if selftest then
    let r := jooki_selftest
    { status := r.1, encode_calls := r.2.map (fun row => (row.iv, row.tt, row.uid)),
      printed := none }
  else if (tt_dragon.toNat + tt_fox.toNat + tt_ghost.toNat + tt_knight.toNat + tt_whale.toNat) > 1
  then
    { status := PM3_EINVARG, encode_calls := [], printed := none }
  else
    let tt : Nat := 0
    let tt := if tt_fox then 1 else tt
    let tt := if tt_ghost then 2 else tt
    let tt := if tt_knight then 3 else tt
    let tt := if tt_whale then 5 else tt
    let iv : List Nat := [0x80, 0x77, 0x51, 1]
    let encode (uid : List Nat) : encode_cmd_result :=
      let b64 : List Nat := List.replicate JOOKI_B64_LEN 0
      let b64 := (jooki_encode (some iv) tt (some uid) (some b64)).2
      { status := PM3_SUCCESS, encode_calls := [(iv, tt, uid)],
        printed := some (jooki_printEx (b64.getD []) iv tt uid verbose) }
    if use_tag then
      let r := ul_read_uid uid
      let res := r.1
      let uid := r.2
      if res ≠ PM3_SUCCESS then
        { status := res, encode_calls := [], printed := none }
      else
        encode uid
    else
      if ulen ≠ JOOKI_UID_LEN then
        { status := PM3_EINVARG, encode_calls := [], printed := none }
      else
        encode uid

/-! ## The write command -/

/-- The arguments of one `SendCommandMIX(CMD_HF_MIFAREU_WRITEBL, blockno, keytype, 0,
cmddata, sizeof(cmddata))`. -/
structure write_request where
  blockno : Nat
  keytype : Nat
  cmddata : List Nat
deriving DecidableEq

/-- One iteration of the loop of `CmdHF14AJookiWrite`: the request sent and the line
printed for it: `some isOK` after a response, `none` after a timeout. -/
structure write_step where
  request : write_request
  reply : Option Bool
deriving DecidableEq

/-- The `while ((i * 4) < dlen)` loop of `CmdHF14AJookiWrite`, with `i`, `blockno` and
`keytype` the `uint8_t` locals. `resp n` is what `WaitForResponseTimeout` gives for the
request sent after `n` earlier ones (`none` for a timeout, else `oldarg[0]`); it belongs
to the device, not to the source. `fuel` bounds the number of iterations; `none` means
the bound was reached. -/
def CmdHF14AJookiWrite_loop (resp : Nat → Option Nat) (data pwd : List Nat) (dlen : Int)
    (has_pwd : Bool) : Nat → Nat → Nat → Nat → Nat → Option (List write_step)
  | 0, _, _, _, _ => none
  | fuel + 1, n, i, blockno, keytype =>
    if ((i : Int) * 4) < dlen then
      let cmddata : List Nat := List.replicate 8 0
      let cmddata := memcpy cmddata 0 (data.drop (i * 4)) 4
      let cmddata := if has_pwd then memcpy cmddata 4 pwd 4 else cmddata
      let keytype := if has_pwd then 2 else keytype
      let step : write_step :=
        { request := { blockno := blockno, keytype := keytype, cmddata := cmddata },
          reply := (resp n).map (fun oldarg0 => decide (oldarg0 % 256 ≠ 0)) }
      (CmdHF14AJookiWrite_loop resp data pwd dlen has_pwd fuel (n + 1) ((i + 1) % 256)
        ((blockno + 1) % 256) keytype).map (fun steps => step :: steps)
    else
      some []

/-- The command `CmdHF14AJookiWrite` after its arguments are parsed by the
command-line parser (external): `res` is the status of parsing `-d` into the zeroed
52-byte buffer `data`, `dlen` the number of bytes parsed, `pwd` the zeroed 4-byte
buffer filled from `-p` and `plen` the number of bytes parsed into it. Returns the
status and the iterations of the write loop, `none` when `fuel` iterations did not
end the loop. -/
def CmdHF14AJookiWrite (fuel : Nat) (resp : Nat → Option Nat) (res : Int) (data : List Nat)
    (dlen : Int) (pwd : List Nat) (plen : Int) : Option (Int × List write_step) :=
  if res ≠ 0 then
    some (PM3_EINVARG, [])
  else if dlen ≠ 52 then
    some (PM3_EINVARG, [])
  else
    let has_pwd := decide (plen = 4)
    (CmdHF14AJookiWrite_loop resp data pwd dlen has_pwd fuel 0 0 4 0).map
      (fun steps => (PM3_SUCCESS, steps))


/-! ## The two loops written out -/

/-- The obfuscated record computed by the loop of `jooki_encode`, written out. -/
def enc_bytes (i0 i1 i2 i3 tt u0 u1 u2 u3 u4 u5 u6 : Nat) : List Nat :=
  [i0 ^^^ 0x03, i1 ^^^ 0x9c, i2 ^^^ 0x25, i3 ^^^ 0x6f ^^^ i0, tt ^^^ 0xb9 ^^^ i1,
   u0 ^^^ 0x2e ^^^ i2, u1 ^^^ 0xe8 ^^^ i0, u2 ^^^ 0x08 ^^^ i1, u3 ^^^ 0x09 ^^^ i2,
   u4 ^^^ 0x83 ^^^ i0, u5 ^^^ 0xd9 ^^^ i1, u6 ^^^ 0x33 ^^^ i2]

/-- The plain record computed by the loop of `jooki_decode`, written out. -/
def dec_bytes (e0 e1 e2 e3 e4 e5 e6 e7 e8 e9 e10 e11 : Nat) : List Nat :=
  [e0 ^^^ 0x03, e1 ^^^ 0x9c, e2 ^^^ 0x25, e3 ^^^ 0x6f ^^^ e0 ^^^ 0x03,
   e4 ^^^ 0xb9 ^^^ e1 ^^^ 0x9c, e5 ^^^ 0x2e ^^^ e2 ^^^ 0x25, e6 ^^^ 0xe8 ^^^ e0 ^^^ 0x03,
   e7 ^^^ 0x08 ^^^ e1 ^^^ 0x9c, e8 ^^^ 0x09 ^^^ e2 ^^^ 0x25, e9 ^^^ 0x83 ^^^ e0 ^^^ 0x03,
   e10 ^^^ 0xd9 ^^^ e1 ^^^ 0x9c, e11 ^^^ 0x33 ^^^ e2 ^^^ 0x25]

/-! ## Auxiliary lemmas -/

theorem xor_chain (a k b l : Nat) : a ^^^ k ^^^ b ^^^ k ^^^ (b ^^^ l) ^^^ l = a := by
  apply Nat.eq_of_testBit_eq
  intro i
  simp only [Nat.testBit_xor]
  cases a.testBit i <;> cases k.testBit i <;> cases b.testBit i <;> cases l.testBit i <;> rfl

theorem xor_pair (a k : Nat) : a ^^^ k ^^^ k = a := by
  rw [Nat.xor_assoc, Nat.xor_self, Nat.xor_zero]

theorem base64_dec_enc_char : ∀ v, v < 64 → base64_dec_value (base64_enc_char v) = some v := by
  decide

theorem base64_enc_char_ne_pad : ∀ v, v < 64 → base64_enc_char v ≠ 61 := by
  decide

theorem length_eq_four {l : List Nat} (h : l.length = 4) :
    ∃ a b c d, l = [a, b, c, d] := by
  match l, h with
  | [a, b, c, d], _ => exact ⟨a, b, c, d, rfl⟩

theorem length_eq_seven {l : List Nat} (h : l.length = 7) :
    ∃ a b c d e f g, l = [a, b, c, d, e, f, g] := by
  match l, h with
  | [a, b, c, d, e, f, g], _ => exact ⟨a, b, c, d, e, f, g, rfl⟩

theorem base64_dec_digits_map (ds : List Nat) (h : ∀ d ∈ ds, d < 64) :
    base64_dec_digits (ds.map base64_enc_char) = some ds := by
  induction ds with
  | nil => rfl
  | cons d ds ih =>
    have hd : d < 64 := h d (List.mem_cons_self d ds)
    have htl : ∀ x ∈ ds, x < 64 := fun x hx => h x (List.mem_cons_of_mem d hx)
    simp only [List.map_cons, base64_dec_digits, base64_dec_enc_char d hd, ih htl]

theorem base64_strip_pad_append (l : List Nat) (c : Nat) (h : c ≠ 61) :
    base64_strip_pad (l ++ [c]) = l ++ [c] := by
  unfold base64_strip_pad
  simp only [List.reverse_append, List.reverse_cons, List.reverse_nil, List.nil_append,
    List.singleton_append]
  split
  · next heq => simp only [List.cons.injEq] at heq; exact absurd heq.1 h
  · next heq => simp only [List.cons.injEq] at heq; exact absurd heq.1 h
  · rfl

/-- Base64 text of 12 bytes decodes back to the 12 bytes. -/
theorem base64_decode_text (e rest dst : List Nat) (hlen : e.length = 12)
    (hb : ∀ x ∈ e, x < 256) (hdst : dst.length = 12) :
    mbedtls_base64_decode dst 12 (base64_text e ++ rest) 16 = (0, 12, e) := by
  match e, hlen with
  | [a0, a1, a2, a3, a4, a5, a6, a7, a8, a9, a10, a11], _ =>
    simp only [List.mem_cons, List.mem_singleton, forall_eq_or_imp, forall_eq, List.not_mem_nil,
      IsEmpty.forall_iff, implies_true, and_true] at hb
    obtain ⟨h0, h1, h2, h3, h4, h5, h6, h7, h8, h9, h10, h11⟩ := hb
    have htext : base64_text [a0, a1, a2, a3, a4, a5, a6, a7, a8, a9, a10, a11] =
        ([a0 / 4, (a0 % 4) * 16 + a1 / 16, (a1 % 16) * 4 + a2 / 64, a2 % 64,
          a3 / 4, (a3 % 4) * 16 + a4 / 16, (a4 % 16) * 4 + a5 / 64, a5 % 64,
          a6 / 4, (a6 % 4) * 16 + a7 / 16, (a7 % 16) * 4 + a8 / 64, a8 % 64,
          a9 / 4, (a9 % 4) * 16 + a10 / 16, (a10 % 16) * 4 + a11 / 64].map base64_enc_char)
          ++ [base64_enc_char (a11 % 64)] := rfl
    have htake : (base64_text [a0, a1, a2, a3, a4, a5, a6, a7, a8, a9, a10, a11] ++ rest).take 16
        = base64_text [a0, a1, a2, a3, a4, a5, a6, a7, a8, a9, a10, a11] := by
      apply List.take_left'
      rfl
    unfold mbedtls_base64_decode
    rw [htake, htext, base64_strip_pad_append _ _ (base64_enc_char_ne_pad _ (by omega))]
    have hmap : ([a0 / 4, (a0 % 4) * 16 + a1 / 16, (a1 % 16) * 4 + a2 / 64, a2 % 64,
          a3 / 4, (a3 % 4) * 16 + a4 / 16, (a4 % 16) * 4 + a5 / 64, a5 % 64,
          a6 / 4, (a6 % 4) * 16 + a7 / 16, (a7 % 16) * 4 + a8 / 64, a8 % 64,
          a9 / 4, (a9 % 4) * 16 + a10 / 16, (a10 % 16) * 4 + a11 / 64].map base64_enc_char)
          ++ [base64_enc_char (a11 % 64)] =
        [a0 / 4, (a0 % 4) * 16 + a1 / 16, (a1 % 16) * 4 + a2 / 64, a2 % 64,
          a3 / 4, (a3 % 4) * 16 + a4 / 16, (a4 % 16) * 4 + a5 / 64, a5 % 64,
          a6 / 4, (a6 % 4) * 16 + a7 / 16, (a7 % 16) * 4 + a8 / 64, a8 % 64,
          a9 / 4, (a9 % 4) * 16 + a10 / 16, (a10 % 16) * 4 + a11 / 64, a11 % 64].map
            base64_enc_char := rfl
    rw [hmap, base64_dec_digits_map]
    · match dst, hdst with
      | [r0, r1, r2, r3, r4, r5, r6, r7, r8, r9, r10, r11], _ =>
        simp only [base64_dec_bytes, List.length_cons, List.length_nil, memcpy, List.take,
          List.drop, List.nil_append, List.append_nil, Nat.lt_irrefl, if_false, Nat.zero_add,
          Nat.reduceAdd, List.take_succ_cons, List.take_zero]
        refine congrArg (fun l => ((0 : Int), 12, l)) ?_
        simp only [List.cons.injEq, and_true]
        refine ⟨?_, ?_, ?_, ?_, ?_, ?_, ?_, ?_, ?_, ?_, ?_, ?_⟩ <;> omega
    · intro d hd
      simp only [List.mem_cons, List.mem_singleton, List.not_mem_nil, or_false] at hd
      omega

theorem jooki_encode_eq (i0 i1 i2 i3 tt u0 u1 u2 u3 u4 u5 u6 : Nat) (out : List Nat) :
    jooki_encode (some [i0, i1, i2, i3]) tt (some [u0, u1, u2, u3, u4, u5, u6]) (some out) =
      (PM3_SUCCESS,
        some (base64_text (enc_bytes i0 i1 i2 i3 tt u0 u1 u2 u3 u4 u5 u6) ++ out.drop 16)) := by
  have henc : (List.range JOOKI_PLAIN_LEN).foldl (fun enc i =>
        if i < 3 then
          enc.set i (([i0, i1, i2, i3, tt, u0, u1, u2, u3, u4, u5, u6] : List Nat).getD i 0 ^^^
            NFC_SECRET.getD i 0)
        else
          enc.set i (([i0, i1, i2, i3, tt, u0, u1, u2, u3, u4, u5, u6] : List Nat).getD i 0 ^^^
            NFC_SECRET.getD i 0 ^^^
            ([i0, i1, i2, i3, tt, u0, u1, u2, u3, u4, u5, u6] : List Nat).getD (i % 3) 0))
        (List.replicate JOOKI_PLAIN_LEN 0) = enc_bytes i0 i1 i2 i3 tt u0 u1 u2 u3 u4 u5 u6 := rfl
  have hlen : (base64_text (enc_bytes i0 i1 i2 i3 tt u0 u1 u2 u3 u4 u5 u6)).length = 16 := rfl
  have hb64 : mbedtls_base64_encode (List.replicate 20 0) 20
      (enc_bytes i0 i1 i2 i3 tt u0 u1 u2 u3 u4 u5 u6) JOOKI_PLAIN_LEN =
      (0, 16, base64_text (enc_bytes i0 i1 i2 i3 tt u0 u1 u2 u3 u4 u5 u6) ++ [0, 0, 0, 0]) := by
    have ht : (enc_bytes i0 i1 i2 i3 tt u0 u1 u2 u3 u4 u5 u6).take JOOKI_PLAIN_LEN =
        enc_bytes i0 i1 i2 i3 tt u0 u1 u2 u3 u4 u5 u6 := rfl
    unfold mbedtls_base64_encode
    simp only [ht, hlen, memcpy]
    have h17 : (base64_text (enc_bytes i0 i1 i2 i3 tt u0 u1 u2 u3 u4 u5 u6) ++ [0]).take 17 =
        base64_text (enc_bytes i0 i1 i2 i3 tt u0 u1 u2 u3 u4 u5 u6) ++ [0] :=
      List.take_of_length_le (by simp [hlen])
    simp [h17]
  have hdrop : (out.set 0 0).drop 16 = out.drop 16 := by
    cases out with
    | nil => rfl
    | cons x xs => rfl
  have htake : (base64_text (enc_bytes i0 i1 i2 i3 tt u0 u1 u2 u3 u4 u5 u6) ++ [0, 0, 0, 0]).take
      16 = base64_text (enc_bytes i0 i1 i2 i3 tt u0 u1 u2 u3 u4 u5 u6) :=
    List.take_left' hlen
  simp only [jooki_encode, List.getD_cons_zero, List.getD_cons_succ, henc, hb64, memcpy,
    List.take_zero, List.nil_append, Nat.zero_add, hdrop, htake]

theorem length_ge_twelve {l : List Nat} (h : 12 ≤ l.length) :
    ∃ r0 r1 r2 r3 r4 r5 r6 r7 r8 r9 r10 r11 rest,
      l = r0 :: r1 :: r2 :: r3 :: r4 :: r5 :: r6 :: r7 :: r8 :: r9 :: r10 :: r11 :: rest := by
  match l, h with
  | r0 :: r1 :: r2 :: r3 :: r4 :: r5 :: r6 :: r7 :: r8 :: r9 :: r10 :: r11 :: rest, _ =>
    exact ⟨r0, r1, r2, r3, r4, r5, r6, r7, r8, r9, r10, r11, rest, rfl⟩

theorem jooki_decode_of_ndef (b64 result : List Nat) (e0 e1 e2 e3 e4 e5 e6 e7 e8 e9 e10 e11 : Nat)
    (h : (mbedtls_base64_decode (List.replicate JOOKI_PLAIN_LEN 0) JOOKI_PLAIN_LEN b64 16).2.2 =
      [e0, e1, e2, e3, e4, e5, e6, e7, e8, e9, e10, e11])
    (hres : 12 ≤ result.length) :
    jooki_decode b64 result =
      (PM3_SUCCESS, dec_bytes e0 e1 e2 e3 e4 e5 e6 e7 e8 e9 e10 e11 ++ result.drop 12) := by
  obtain ⟨r0, r1, r2, r3, r4, r5, r6, r7, r8, r9, r10, r11, rest, rfl⟩ := length_ge_twelve hres
  unfold jooki_decode
  simp only [h]
  rfl

theorem enc_bytes_lt (i0 i1 i2 i3 tt u0 u1 u2 u3 u4 u5 u6 : Nat)
    (h0 : i0 < 256) (h1 : i1 < 256) (h2 : i2 < 256) (h3 : i3 < 256) (ht : tt < 256)
    (g0 : u0 < 256) (g1 : u1 < 256) (g2 : u2 < 256) (g3 : u3 < 256) (g4 : u4 < 256)
    (g5 : u5 < 256) (g6 : u6 < 256) :
    ∀ x ∈ enc_bytes i0 i1 i2 i3 tt u0 u1 u2 u3 u4 u5 u6, x < 256 := by
  have hx : ∀ a b : Nat, a < 256 → b < 256 → a ^^^ b < 256 := fun a b ha hb =>
    Nat.xor_lt_two_pow (n := 8) ha hb
  intro x hx'
  simp only [enc_bytes, List.mem_cons, List.mem_singleton, List.not_mem_nil, or_false] at hx'
  rcases hx' with h | h | h | h | h | h | h | h | h | h | h | h <;> subst h <;>
    first
      | exact hx _ _ (hx _ _ (by assumption) (by decide)) (by assumption)
      | exact hx _ _ (by assumption) (by decide)

theorem dec_enc_bytes (i0 i1 i2 i3 tt u0 u1 u2 u3 u4 u5 u6 : Nat) :
    dec_bytes (i0 ^^^ 0x03) (i1 ^^^ 0x9c) (i2 ^^^ 0x25) (i3 ^^^ 0x6f ^^^ i0) (tt ^^^ 0xb9 ^^^ i1)
      (u0 ^^^ 0x2e ^^^ i2) (u1 ^^^ 0xe8 ^^^ i0) (u2 ^^^ 0x08 ^^^ i1) (u3 ^^^ 0x09 ^^^ i2)
      (u4 ^^^ 0x83 ^^^ i0) (u5 ^^^ 0xd9 ^^^ i1) (u6 ^^^ 0x33 ^^^ i2) =
    [i0, i1, i2, i3, tt, u0, u1, u2, u3, u4, u5, u6] := by
  simp only [dec_bytes, xor_chain, xor_pair]

/-- C1: round trip. For every 4-byte iv, every tagtype byte and every 7-byte uid,
`jooki_encode` succeeds and `jooki_decode` of the token it wrote returns success with the
record `iv ‖ tagtype ‖ uid` in the first 12 bytes of `result`. -/
theorem jooki_decode_encode (iv uid out result : List Nat) (tagtype : Nat)
    (hiv : iv.length = 4) (huid : uid.length = 7)
    (hivb : ∀ x ∈ iv, x < 256) (htt : tagtype < 256) (huidb : ∀ x ∈ uid, x < 256)
    (hout : 16 ≤ out.length) (hres : 12 ≤ result.length) :
    ∃ token, jooki_encode (some iv) tagtype (some uid) (some out) = (PM3_SUCCESS, some token) ∧
      token.length = out.length ∧
      jooki_decode token result = (PM3_SUCCESS, iv ++ tagtype :: uid ++ result.drop 12) := by
  obtain ⟨i0, i1, i2, i3, rfl⟩ := length_eq_four hiv
  obtain ⟨u0, u1, u2, u3, u4, u5, u6, rfl⟩ := length_eq_seven huid
  simp only [List.mem_cons, List.mem_singleton, forall_eq_or_imp, forall_eq, List.not_mem_nil,
    IsEmpty.forall_iff, implies_true, and_true] at hivb huidb
  obtain ⟨h0, h1, h2, h3⟩ := hivb
  obtain ⟨g0, g1, g2, g3, g4, g5, g6⟩ := huidb
  refine ⟨_, jooki_encode_eq i0 i1 i2 i3 tagtype u0 u1 u2 u3 u4 u5 u6 out, ?_, ?_⟩
  · have hlen : (base64_text (enc_bytes i0 i1 i2 i3 tagtype u0 u1 u2 u3 u4 u5 u6)).length = 16 :=
      rfl
    rw [List.length_append, hlen, List.length_drop]
    omega
  · have hdec := base64_decode_text (enc_bytes i0 i1 i2 i3 tagtype u0 u1 u2 u3 u4 u5 u6)
      (out.drop 16) (List.replicate JOOKI_PLAIN_LEN 0) rfl
      (enc_bytes_lt i0 i1 i2 i3 tagtype u0 u1 u2 u3 u4 u5 u6 h0 h1 h2 h3 htt g0 g1 g2 g3 g4 g5 g6)
      rfl
    have hndef : (mbedtls_base64_decode (List.replicate JOOKI_PLAIN_LEN 0) JOOKI_PLAIN_LEN
        (base64_text (enc_bytes i0 i1 i2 i3 tagtype u0 u1 u2 u3 u4 u5 u6) ++ out.drop 16) 16).2.2
        = enc_bytes i0 i1 i2 i3 tagtype u0 u1 u2 u3 u4 u5 u6 := congrArg (fun r => r.2.2) hdec
    rw [jooki_decode_of_ndef _ result _ _ _ _ _ _ _ _ _ _ _ _ hndef hres, dec_enc_bytes]
    rfl

/-- Witness of C1 at iv = 80 77 51 01, tagtype = 0x00, uid = 04 DA B7 6A E7 4C 80. -/
theorem jooki_decode_encode_witness :
    ∃ token, jooki_encode (some [0x80, 0x77, 0x51, 0x01]) 0x00
        (some [0x04, 0xDA, 0xB7, 0x6A, 0xE7, 0x4C, 0x80]) (some (List.replicate 17 0)) =
        (PM3_SUCCESS, some token) ∧
      token.length = (List.replicate 17 0).length ∧
      jooki_decode token (List.replicate 12 0) =
        (PM3_SUCCESS, [0x80, 0x77, 0x51, 0x01] ++ 0x00 :: [0x04, 0xDA, 0xB7, 0x6A, 0xE7, 0x4C, 0x80]
          ++ (List.replicate 12 0).drop 12) :=
  jooki_decode_encode [0x80, 0x77, 0x51, 0x01] [0x04, 0xDA, 0xB7, 0x6A, 0xE7, 0x4C, 0x80]
    (List.replicate 17 0) (List.replicate 12 0) 0x00 (by decide) (by decide) (by decide)
    (by decide) (by decide) (by decide) (by decide)


/-- C2: known vectors. Seven of the ten `jooks` entries have a non-empty token; for each of
them `jooki_decode` of the token gives a record whose byte 4 is the entry's tagtype and
whose bytes 5..11 are the entry's uid, and the self-test reports `tt_ok` and `uid_ok` true
in each of its rows; the token "ONrsVf7jX6IaSNV6" gives category 0x01 and identifier
04 8C EC DA F0 4A 80. -/
theorem jooks_known_vectors :
    jooks.length = 10 ∧
    (jooks.filter (fun j => decide (strlen j.b64 ≠ 0))).length = 7 ∧
    (∀ j ∈ jooks, strlen j.b64 ≠ 0 →
      (jooki_decode j.b64 (List.replicate JOOKI_PLAIN_LEN 0)).1 = PM3_SUCCESS ∧
      (jooki_decode j.b64 (List.replicate JOOKI_PLAIN_LEN 0)).2.getD 4 0 = j.tagtype ∧
      ((jooki_decode j.b64 (List.replicate JOOKI_PLAIN_LEN 0)).2.drop 5).take 7 = j.uid) ∧
    jooki_selftest.2.map (fun r => (r.tt_ok, r.uid_ok)) = List.replicate 7 (true, true) ∧
    (jooki_decode (cstr "ONrsVf7jX6IaSNV6" 17) (List.replicate JOOKI_PLAIN_LEN 0)).2.getD 4 0
      = 0x01 ∧
    ((jooki_decode (cstr "ONrsVf7jX6IaSNV6" 17) (List.replicate JOOKI_PLAIN_LEN 0)).2.drop 5).take 7
      = [0x04, 0x8C, 0xEC, 0xDA, 0xF0, 0x4A, 0x80] := by
  decide

/-- C3: encode formula. With `d = iv ‖ tagtype ‖ uid` and `K = NFC_SECRET`, the token
written by `jooki_encode` at the start of `out` is the 16-character base64 text of the
12 bytes `enc` with `enc[i] = d[i] XOR K[i]` for `i < 3` and
`enc[i] = d[i] XOR K[i] XOR d[i mod 3]` for `3 ≤ i ≤ 11`; the call returns success. -/
theorem jooki_encode_formula (iv uid out : List Nat) (tagtype : Nat)
    (hiv : iv.length = 4) (huid : uid.length = 7) :
    ∃ enc : List Nat, enc.length = 12 ∧
      (∀ i, i < 3 →
        enc.getD i 0 = (iv ++ tagtype :: uid).getD i 0 ^^^ NFC_SECRET.getD i 0) ∧
      (∀ i, 3 ≤ i → i ≤ 11 →
        enc.getD i 0 = (iv ++ tagtype :: uid).getD i 0 ^^^ NFC_SECRET.getD i 0 ^^^
          (iv ++ tagtype :: uid).getD (i % 3) 0) ∧
      (base64_text enc).length = 16 ∧
      jooki_encode (some iv) tagtype (some uid) (some out) =
        (PM3_SUCCESS, some (base64_text enc ++ out.drop 16)) := by
  obtain ⟨i0, i1, i2, i3, rfl⟩ := length_eq_four hiv
  obtain ⟨u0, u1, u2, u3, u4, u5, u6, rfl⟩ := length_eq_seven huid
  refine ⟨enc_bytes i0 i1 i2 i3 tagtype u0 u1 u2 u3 u4 u5 u6, rfl, ?_, ?_, rfl,
    jooki_encode_eq i0 i1 i2 i3 tagtype u0 u1 u2 u3 u4 u5 u6 out⟩
  · intro i hi
    interval_cases i <;> rfl
  · intro i h3 h11
    interval_cases i <;> rfl

/-- Witness of C3 at iv = 80 77 51 01, tagtype = 0x00, uid = 04 DA B7 6A E7 4C 80. -/
theorem jooki_encode_formula_witness :
    ∃ enc : List Nat, enc.length = 12 ∧
      (∀ i, i < 3 →
        enc.getD i 0 = ([0x80, 0x77, 0x51, 0x01] ++ 0x00 ::
          [0x04, 0xDA, 0xB7, 0x6A, 0xE7, 0x4C, 0x80]).getD i 0 ^^^ NFC_SECRET.getD i 0) ∧
      (∀ i, 3 ≤ i → i ≤ 11 →
        enc.getD i 0 = ([0x80, 0x77, 0x51, 0x01] ++ 0x00 ::
          [0x04, 0xDA, 0xB7, 0x6A, 0xE7, 0x4C, 0x80]).getD i 0 ^^^ NFC_SECRET.getD i 0 ^^^
          ([0x80, 0x77, 0x51, 0x01] ++ 0x00 ::
            [0x04, 0xDA, 0xB7, 0x6A, 0xE7, 0x4C, 0x80]).getD (i % 3) 0) ∧
      (base64_text enc).length = 16 ∧
      jooki_encode (some [0x80, 0x77, 0x51, 0x01]) 0x00
        (some [0x04, 0xDA, 0xB7, 0x6A, 0xE7, 0x4C, 0x80]) (some (List.replicate 17 0)) =
        (PM3_SUCCESS, some (base64_text enc ++ (List.replicate 17 0).drop 16)) :=
  jooki_encode_formula [0x80, 0x77, 0x51, 0x01] [0x04, 0xDA, 0xB7, 0x6A, 0xE7, 0x4C, 0x80]
    (List.replicate 17 0) 0x00 (by decide) (by decide)

theorem base64_dec_value_of_mem (c : Nat) (h : c ∈ base64_enc_map) :
    ∃ v, base64_dec_value c = some v := by
  have hlt : base64_enc_map.indexOf c < 64 := List.indexOf_lt_length.mpr h
  exact ⟨base64_enc_map.indexOf c, by simp only [base64_dec_value, hlt, if_true]⟩

theorem base64_dec_digits_of_mem (l : List Nat) (h : ∀ c ∈ l, c ∈ base64_enc_map) :
    ∃ ds, base64_dec_digits l = some ds ∧ ds.length = l.length := by
  induction l with
  | nil => exact ⟨[], rfl, rfl⟩
  | cons c cs ih =>
    obtain ⟨v, hv⟩ := base64_dec_value_of_mem c (h c (List.mem_cons_self c cs))
    obtain ⟨vs, hvs, hl⟩ := ih (fun x hx => h x (List.mem_cons_of_mem c hx))
    exact ⟨v :: vs, by simp only [base64_dec_digits, hv, hvs], by simp [hl]⟩

theorem pad_not_mem_enc_map : 61 ∉ base64_enc_map := by decide

theorem length_eq_sixteen {l : List Nat} (h : l.length = 16) :
    ∃ (c : Nat) (cs : List Nat), l = cs ++ [c] ∧
      ∃ a0 a1 a2 a3 a4 a5 a6 a7 a8 a9 a10 a11 a12 a13 a14 a15,
        l = [a0, a1, a2, a3, a4, a5, a6, a7, a8, a9, a10, a11, a12, a13, a14, a15] := by
  match l, h with
  | [a0, a1, a2, a3, a4, a5, a6, a7, a8, a9, a10, a11, a12, a13, a14, a15], _ =>
    exact ⟨a15, [a0, a1, a2, a3, a4, a5, a6, a7, a8, a9, a10, a11, a12, a13, a14], rfl,
      a0, a1, a2, a3, a4, a5, a6, a7, a8, a9, a10, a11, a12, a13, a14, a15, rfl⟩

/-- A 16-character text over the alphabet decodes, with status 0, to 12 bytes. -/
theorem base64_decode_alphabet (b64 : List Nat) (hlen : 16 ≤ b64.length)
    (halpha : ∀ c ∈ b64.take 16, c ∈ base64_enc_map) :
    ∃ e : List Nat, e.length = 12 ∧
      mbedtls_base64_decode (List.replicate JOOKI_PLAIN_LEN 0) JOOKI_PLAIN_LEN b64 16 =
        (0, 12, e) := by
  have h16 : (b64.take 16).length = 16 := by rw [List.length_take]; omega
  obtain ⟨c, cs, hsplit, -⟩ := length_eq_sixteen h16
  have hc : c ≠ 61 := by
    intro hc61
    apply pad_not_mem_enc_map
    rw [← hc61]
    apply halpha
    rw [hsplit]
    simp
  obtain ⟨ds, hds, hdl⟩ := base64_dec_digits_of_mem _ halpha
  rw [h16] at hdl
  obtain ⟨-, -, -, s0, s1, s2, s3, s4, s5, s6, s7, s8, s9, s10, s11, s12, s13, s14, s15, rfl⟩ :=
    length_eq_sixteen hdl
  refine ⟨base64_dec_bytes [s0, s1, s2, s3, s4, s5, s6, s7, s8, s9, s10, s11, s12, s13, s14, s15],
    rfl, ?_⟩
  unfold mbedtls_base64_decode
  have hstrip : base64_strip_pad (b64.take 16) = b64.take 16 := by
    rw [hsplit]
    exact base64_strip_pad_append cs c hc
  rw [hstrip, hds]
  rfl

theorem length_eq_twelve {l : List Nat} (h : l.length = 12) :
    ∃ e0 e1 e2 e3 e4 e5 e6 e7 e8 e9 e10 e11,
      l = [e0, e1, e2, e3, e4, e5, e6, e7, e8, e9, e10, e11] := by
  match l, h with
  | [e0, e1, e2, e3, e4, e5, e6, e7, e8, e9, e10, e11], _ =>
    exact ⟨e0, e1, e2, e3, e4, e5, e6, e7, e8, e9, e10, e11, rfl⟩

/-- C4: decode formula. For a token whose first 16 characters are in the base64 alphabet,
the base64 decoder succeeds with 12 bytes `e`, and `jooki_decode` returns success having
written `result[i] = e[i] XOR K[i]` for `i < 3` and
`result[i] = e[i] XOR K[i] XOR e[i mod 3] XOR K[i mod 3]` for `3 ≤ i ≤ 11`, the rest of
`result` being left as it was. -/
theorem jooki_decode_formula (b64 result : List Nat) (hlen : 16 ≤ b64.length)
    (halpha : ∀ c ∈ b64.take 16, c ∈ base64_enc_map) (hres : 12 ≤ result.length) :
    ∃ e : List Nat, e.length = 12 ∧
      mbedtls_base64_decode (List.replicate JOOKI_PLAIN_LEN 0) JOOKI_PLAIN_LEN b64 16 =
        (0, 12, e) ∧
      (jooki_decode b64 result).1 = PM3_SUCCESS ∧
      (∀ i, i < 3 →
        (jooki_decode b64 result).2.getD i 0 = e.getD i 0 ^^^ NFC_SECRET.getD i 0) ∧
      (∀ i, 3 ≤ i → i ≤ 11 →
        (jooki_decode b64 result).2.getD i 0 = e.getD i 0 ^^^ NFC_SECRET.getD i 0 ^^^
          e.getD (i % 3) 0 ^^^ NFC_SECRET.getD (i % 3) 0) ∧
      (jooki_decode b64 result).2.length = result.length ∧
      (jooki_decode b64 result).2.drop 12 = result.drop 12 := by
  obtain ⟨e, hel, hdec⟩ := base64_decode_alphabet b64 hlen halpha
  obtain ⟨e0, e1, e2, e3, e4, e5, e6, e7, e8, e9, e10, e11, rfl⟩ := length_eq_twelve hel
  have hndef : (mbedtls_base64_decode (List.replicate JOOKI_PLAIN_LEN 0) JOOKI_PLAIN_LEN
      b64 16).2.2 = [e0, e1, e2, e3, e4, e5, e6, e7, e8, e9, e10, e11] :=
    congrArg (fun r => r.2.2) hdec
  have hj := jooki_decode_of_ndef b64 result e0 e1 e2 e3 e4 e5 e6 e7 e8 e9 e10 e11 hndef hres
  refine ⟨[e0, e1, e2, e3, e4, e5, e6, e7, e8, e9, e10, e11], rfl, hdec, ?_, ?_, ?_, ?_, ?_⟩
  · rw [hj]
  · intro i hi
    rw [hj]
    interval_cases i <;> rfl
  · intro i h3 h11
    rw [hj]
    interval_cases i <;> rfl
  · rw [hj]
    simp only [List.length_append, List.length_drop, dec_bytes, List.length_cons,
      List.length_nil]
    omega
  · rw [hj]
    exact List.drop_left' rfl

/-- Witness of C4 at the token "ONrsVf7jX6IaSNV6". -/
theorem jooki_decode_formula_witness :
    ∃ e : List Nat, e.length = 12 ∧
      mbedtls_base64_decode (List.replicate JOOKI_PLAIN_LEN 0) JOOKI_PLAIN_LEN
        (cstr "ONrsVf7jX6IaSNV6" 17) 16 = (0, 12, e) ∧
      (jooki_decode (cstr "ONrsVf7jX6IaSNV6" 17) (List.replicate 12 0)).1 = PM3_SUCCESS ∧
      (∀ i, i < 3 →
        (jooki_decode (cstr "ONrsVf7jX6IaSNV6" 17) (List.replicate 12 0)).2.getD i 0 =
          e.getD i 0 ^^^ NFC_SECRET.getD i 0) ∧
      (∀ i, 3 ≤ i → i ≤ 11 →
        (jooki_decode (cstr "ONrsVf7jX6IaSNV6" 17) (List.replicate 12 0)).2.getD i 0 =
          e.getD i 0 ^^^ NFC_SECRET.getD i 0 ^^^ e.getD (i % 3) 0 ^^^
            NFC_SECRET.getD (i % 3) 0) ∧
      (jooki_decode (cstr "ONrsVf7jX6IaSNV6" 17) (List.replicate 12 0)).2.length =
        (List.replicate 12 0).length ∧
      (jooki_decode (cstr "ONrsVf7jX6IaSNV6" 17) (List.replicate 12 0)).2.drop 12 =
        (List.replicate 12 0).drop 12 :=
  jooki_decode_formula (cstr "ONrsVf7jX6IaSNV6" 17) (List.replicate 12 0) (by decide)
    (by decide) (by decide)

theorem base64_enc_char_mem : ∀ v, v < 64 → base64_enc_char v ∈ base64_enc_map := by
  decide

theorem zero_not_mem_enc_map : 0 ∉ base64_enc_map := by decide

/-- Every character of the base64 text of 12 bytes is in the alphabet. -/
theorem base64_text_mem (e : List Nat) (hlen : e.length = 12) (hb : ∀ x ∈ e, x < 256) :
    ∀ c ∈ base64_text e, c ∈ base64_enc_map := by
  obtain ⟨a0, a1, a2, a3, a4, a5, a6, a7, a8, a9, a10, a11, rfl⟩ := length_eq_twelve hlen
  simp only [List.mem_cons, List.mem_singleton, forall_eq_or_imp, forall_eq, List.not_mem_nil,
    IsEmpty.forall_iff, implies_true, and_true] at hb
  obtain ⟨h0, h1, h2, h3, h4, h5, h6, h7, h8, h9, h10, h11⟩ := hb
  intro c hc
  simp only [base64_text, List.mem_cons, List.mem_singleton, List.not_mem_nil, or_false] at hc
  rcases hc with h | h | h | h | h | h | h | h | h | h | h | h | h | h | h | h <;> subst h <;>
    exact base64_enc_char_mem _ (by omega)

theorem strlen_append_zero (l rest : List Nat) (h : ∀ c ∈ l, c ≠ 0) :
    strlen (l ++ 0 :: rest) = l.length := by
  induction l with
  | nil => simp [strlen]
  | cons c cs ih =>
    have hc : c ≠ 0 := h c (List.mem_cons_self c cs)
    have ih' := ih (fun x hx => h x (List.mem_cons_of_mem c hx))
    rw [List.cons_append, strlen, if_neg hc, ih', List.length_cons]

/-- C5: token shape. `jooki_encode` succeeds and writes exactly 16 characters: the
first 16 bytes of the output are characters of the base64 alphabet, none of them the
padding character `=`; the buffer keeps its length and its bytes from offset 16 on, so
byte 16 of a zeroed 17-byte buffer stays NUL and the token is a C string of length 16. -/
theorem jooki_encode_token_shape (iv uid out : List Nat) (tagtype : Nat)
    (hiv : iv.length = 4) (huid : uid.length = 7)
    (hivb : ∀ x ∈ iv, x < 256) (htt : tagtype < 256) (huidb : ∀ x ∈ uid, x < 256)
    (hout : out.length = JOOKI_B64_LEN) :
    ∃ token, jooki_encode (some iv) tagtype (some uid) (some out) = (PM3_SUCCESS, some token) ∧
      token.length = JOOKI_B64_LEN ∧
      (∀ j, j < 16 → token.getD j 0 ∈ base64_enc_map) ∧
      (∀ j, j < 16 → token.getD j 0 ≠ 61) ∧
      token.drop 16 = out.drop 16 ∧
      token.getD 16 0 = out.getD 16 0 ∧
      (out.getD 16 0 = 0 → strlen token = 16) := by
  obtain ⟨i0, i1, i2, i3, rfl⟩ := length_eq_four hiv
  obtain ⟨u0, u1, u2, u3, u4, u5, u6, rfl⟩ := length_eq_seven huid
  simp only [List.mem_cons, List.mem_singleton, forall_eq_or_imp, forall_eq, List.not_mem_nil,
    IsEmpty.forall_iff, implies_true, and_true] at hivb huidb
  obtain ⟨h0, h1, h2, h3⟩ := hivb
  obtain ⟨g0, g1, g2, g3, g4, g5, g6⟩ := huidb
  have hlen : (base64_text (enc_bytes i0 i1 i2 i3 tagtype u0 u1 u2 u3 u4 u5 u6)).length = 16 :=
    rfl
  have hmem := base64_text_mem (enc_bytes i0 i1 i2 i3 tagtype u0 u1 u2 u3 u4 u5 u6) rfl
    (enc_bytes_lt i0 i1 i2 i3 tagtype u0 u1 u2 u3 u4 u5 u6 h0 h1 h2 h3 htt g0 g1 g2 g3 g4 g5 g6)
  have hget : ∀ j, j < 16 →
      (base64_text (enc_bytes i0 i1 i2 i3 tagtype u0 u1 u2 u3 u4 u5 u6) ++ out.drop 16).getD j 0 ∈
        base64_enc_map := by
    intro j hj
    rw [List.getD_append _ _ _ _ (by rw [hlen]; exact hj), List.getD_eq_getElem _ _ (by rw [hlen]; exact hj)]
    exact hmem _ (List.getElem_mem _)
  have hd16 : (base64_text (enc_bytes i0 i1 i2 i3 tagtype u0 u1 u2 u3 u4 u5 u6) ++
      out.drop 16).drop 16 = out.drop 16 := List.drop_left' hlen
  have hg16 : (base64_text (enc_bytes i0 i1 i2 i3 tagtype u0 u1 u2 u3 u4 u5 u6) ++
      out.drop 16).getD 16 0 = out.getD 16 0 := by
    rw [List.getD_append_right _ _ _ _ (by rw [hlen]), hlen]
    simp
  refine ⟨_, jooki_encode_eq i0 i1 i2 i3 tagtype u0 u1 u2 u3 u4 u5 u6 out, ?_, hget, ?_, hd16,
    hg16, ?_⟩
  · rw [List.length_append, hlen, List.length_drop, hout]
    rfl
  · intro j hj h61
    apply pad_not_mem_enc_map
    rw [← h61]
    exact hget j hj
  · intro hz
    have hsplit : out.drop 16 = [0] := by
      match out, hout, hz with
      | [_, _, _, _, _, _, _, _, _, _, _, _, _, _, _, _, z], _, hz =>
        simp only [List.getD_cons_succ, List.getD_cons_zero] at hz
        subst hz
        rfl
    rw [hsplit, strlen_append_zero _ _ (fun c hc h0 => zero_not_mem_enc_map (h0 ▸ hmem c hc)),
      hlen]

/-- Witness of C5 at iv = 80 77 51 01, tagtype = 0x05, uid = 04 28 F4 DA F0 4A 81 and a zeroed
17-byte buffer. -/
theorem jooki_encode_token_shape_witness :
    ∃ token, jooki_encode (some [0x80, 0x77, 0x51, 0x01]) 0x05
        (some [0x04, 0x28, 0xF4, 0xDA, 0xF0, 0x4A, 0x81]) (some (List.replicate 17 0)) =
        (PM3_SUCCESS, some token) ∧
      token.length = JOOKI_B64_LEN ∧
      (∀ j, j < 16 → token.getD j 0 ∈ base64_enc_map) ∧
      (∀ j, j < 16 → token.getD j 0 ≠ 61) ∧
      token.drop 16 = (List.replicate 17 0).drop 16 ∧
      token.getD 16 0 = (List.replicate 17 0).getD 16 0 ∧
      ((List.replicate 17 0).getD 16 0 = 0 → strlen token = 16) :=
  jooki_encode_token_shape [0x80, 0x77, 0x51, 0x01] [0x04, 0x28, 0xF4, 0xDA, 0xF0, 0x4A, 0x81]
    (List.replicate 17 0) 0x05 (by decide) (by decide) (by decide) (by decide) (by decide)
    (by decide)


theorem length_ge_sixteen {l : List Nat} (h : 16 ≤ l.length) :
    ∃ a0 a1 a2 a3 a4 a5 a6 a7 a8 a9 a10 a11 a12 a13 a14 a15 rest,
      l = a0 :: a1 :: a2 :: a3 :: a4 :: a5 :: a6 :: a7 :: a8 :: a9 :: a10 :: a11 :: a12 ::
        a13 :: a14 :: a15 :: rest := by
  match l, h with
  | a0 :: a1 :: a2 :: a3 :: a4 :: a5 :: a6 :: a7 :: a8 :: a9 :: a10 :: a11 :: a12 :: a13 ::
      a14 :: a15 :: rest, _ =>
    exact ⟨a0, a1, a2, a3, a4, a5, a6, a7, a8, a9, a10, a11, a12, a13, a14, a15, rest, rfl⟩

/-- The three copies of `jooki_create_ndef` put together. -/
theorem jooki_create_ndef_eq (b64ndef out : List Nat) (hb : 16 ≤ b64ndef.length) :
    jooki_create_ndef b64ndef (some out) =
      (PM3_SUCCESS, some (ndef_header ++ b64ndef.take 16 ++ ndef_trailer ++ out.drop 52)) := by
  have h1 : memcpy out 0 ndef_header 31 = ndef_header ++ out.drop 31 := by
    simp [memcpy, ndef_header]
  have hl : ndef_header.length = 31 := rfl
  have ht : (b64ndef.take 16).length = 16 := by rw [List.length_take]; omega
  have h2 : memcpy (ndef_header ++ out.drop 31) 31 b64ndef 16 =
      ndef_header ++ b64ndef.take 16 ++ out.drop 47 := by
    unfold memcpy
    rw [List.take_left' hl, List.drop_append_eq_append_drop, hl]
    simp [ndef_header]
  have h3 : memcpy (ndef_header ++ b64ndef.take 16 ++ out.drop 47) 47 ndef_trailer 5 =
      ndef_header ++ b64ndef.take 16 ++ ndef_trailer ++ out.drop 52 := by
    unfold memcpy
    have hl2 : (ndef_header ++ b64ndef.take 16).length = 47 := by
      rw [List.length_append, hl, ht]
    rw [List.take_left' hl2, List.drop_append_eq_append_drop, hl2]
    simp [ndef_trailer, hl2]
  simp only [jooki_create_ndef, h1, h2, h3]

theorem jooki_create_ndef_length (b64ndef out : List Nat) (hb : 16 ≤ b64ndef.length)
    (ho : 52 ≤ out.length) :
    (ndef_header ++ b64ndef.take 16 ++ ndef_trailer ++ out.drop 52).length = out.length := by
  have hl : ndef_header.length = 31 := rfl
  have hl' : ndef_trailer.length = 5 := rfl
  simp only [List.length_append, List.length_take, List.length_drop, hl, hl']
  omega

/-- C6: message layout. For a token buffer of at least 16 bytes and an output buffer of at
least 52 bytes, `jooki_create_ndef` returns success and fills exactly the first 52 bytes of
the output: bytes 0..30 are 01 03 A0 0C 34 03 29 D1 01 25 55 04 followed by the ASCII of
"s.jooki.rocks/s/?s=", bytes 31..46 are the first 16 token bytes in order, bytes 47..51 are
0A FE 00 00 00, and the output keeps its length and its bytes from offset 52 on. -/
theorem jooki_create_ndef_layout (b64ndef out : List Nat) (hb : 16 ≤ b64ndef.length)
    (ho : 52 ≤ out.length) :
    ∃ msg, jooki_create_ndef b64ndef (some out) = (PM3_SUCCESS, some msg) ∧
      msg.length = out.length ∧
      msg.take 31 = [0x01, 0x03, 0xA0, 0x0C, 0x34, 0x03, 0x29, 0xD1, 0x01, 0x25, 0x55, 0x04] ++
        "s.jooki.rocks/s/?s=".toList.map Char.toNat ∧
      (msg.drop 31).take 16 = b64ndef.take 16 ∧
      (∀ j, j < 16 → msg.getD (31 + j) 0 = b64ndef.getD j 0) ∧
      (msg.drop 47).take 5 = [0x0A, 0xFE, 0x00, 0x00, 0x00] ∧
      msg.drop 52 = out.drop 52 := by
  refine ⟨_, jooki_create_ndef_eq b64ndef out hb, jooki_create_ndef_length b64ndef out hb ho,
    ?_, ?_, ?_, ?_, ?_⟩
  all_goals
    obtain ⟨a0, a1, a2, a3, a4, a5, a6, a7, a8, a9, a10, a11, a12, a13, a14, a15, rest, rfl⟩ :=
      length_ge_sixteen hb
  · have hh : ndef_header =
        [0x01, 0x03, 0xA0, 0x0C, 0x34, 0x03, 0x29, 0xD1, 0x01, 0x25, 0x55, 0x04] ++
          "s.jooki.rocks/s/?s=".toList.map Char.toNat := by decide
    rw [← hh]
    rfl
  · rfl
  · intro j hj
    interval_cases j <;> rfl
  · rfl
  · rfl

/-- Witness of C6 at the token "ONrsVf7jX6IaSNV6" and a zeroed 52-byte output. -/
theorem jooki_create_ndef_layout_witness :
    ∃ msg, jooki_create_ndef (cstr "ONrsVf7jX6IaSNV6" 17) (some (List.replicate 52 0)) =
        (PM3_SUCCESS, some msg) ∧
      msg.length = (List.replicate 52 0).length ∧
      msg.take 31 = [0x01, 0x03, 0xA0, 0x0C, 0x34, 0x03, 0x29, 0xD1, 0x01, 0x25, 0x55, 0x04] ++
        "s.jooki.rocks/s/?s=".toList.map Char.toNat ∧
      (msg.drop 31).take 16 = (cstr "ONrsVf7jX6IaSNV6" 17).take 16 ∧
      (∀ j, j < 16 → msg.getD (31 + j) 0 = (cstr "ONrsVf7jX6IaSNV6" 17).getD j 0) ∧
      (msg.drop 47).take 5 = [0x0A, 0xFE, 0x00, 0x00, 0x00] ∧
      msg.drop 52 = (List.replicate 52 0).drop 52 :=
  jooki_create_ndef_layout (cstr "ONrsVf7jX6IaSNV6" 17) (List.replicate 52 0) (by decide)
    (by decide)

/-- C7: header and trailer do not depend on the token. For any two token buffers and output
buffers, the two messages built by `jooki_create_ndef` agree at every offset in 0..30 and
47..51, byte 47 is 0x0A in both, and they differ at offset 31+j exactly when the tokens
differ at j. -/
theorem jooki_create_ndef_frame (t1 t2 out1 out2 : List Nat) (h1 : 16 ≤ t1.length)
    (h2 : 16 ≤ t2.length) (ho1 : 52 ≤ out1.length) (ho2 : 52 ≤ out2.length) :
    ∃ m1 m2, jooki_create_ndef t1 (some out1) = (PM3_SUCCESS, some m1) ∧
      jooki_create_ndef t2 (some out2) = (PM3_SUCCESS, some m2) ∧
      m1.length = out1.length ∧ m2.length = out2.length ∧
      (∀ i, i < 31 → m1.getD i 0 = m2.getD i 0) ∧
      (∀ i, 47 ≤ i → i < 52 → m1.getD i 0 = m2.getD i 0) ∧
      m1.getD 47 0 = 0x0A ∧ m2.getD 47 0 = 0x0A ∧
      (∀ j, j < 16 → (m1.getD (31 + j) 0 ≠ m2.getD (31 + j) 0 ↔ t1.getD j 0 ≠ t2.getD j 0)) := by
  refine ⟨_, _, jooki_create_ndef_eq t1 out1 h1, jooki_create_ndef_eq t2 out2 h2,
    jooki_create_ndef_length t1 out1 h1 ho1, jooki_create_ndef_length t2 out2 h2 ho2,
    ?_, ?_, ?_, ?_, ?_⟩
  all_goals
    obtain ⟨a0, a1, a2, a3, a4, a5, a6, a7, a8, a9, a10, a11, a12, a13, a14, a15, r1, rfl⟩ :=
      length_ge_sixteen h1
    obtain ⟨b0, b1, b2, b3, b4, b5, b6, b7, b8, b9, b10, b11, b12, b13, b14, b15, r2, rfl⟩ :=
      length_ge_sixteen h2
  · intro i hi
    interval_cases i <;> rfl
  · intro i h47 h52
    interval_cases i <;> rfl
  · rfl
  · rfl
  · intro j hj
    interval_cases j <;> exact Iff.rfl

/-- Witness of C7 at the tokens "ONrsVf7jX6IaSNV6" and "7WzlgEzqLgwTnWNy". -/
theorem jooki_create_ndef_frame_witness :
    ∃ m1 m2, jooki_create_ndef (cstr "ONrsVf7jX6IaSNV6" 17) (some (List.replicate 52 0)) =
        (PM3_SUCCESS, some m1) ∧
      jooki_create_ndef (cstr "7WzlgEzqLgwTnWNy" 17) (some (List.replicate 52 0)) =
        (PM3_SUCCESS, some m2) ∧
      m1.length = (List.replicate 52 0).length ∧ m2.length = (List.replicate 52 0).length ∧
      (∀ i, i < 31 → m1.getD i 0 = m2.getD i 0) ∧
      (∀ i, 47 ≤ i → i < 52 → m1.getD i 0 = m2.getD i 0) ∧
      m1.getD 47 0 = 0x0A ∧ m2.getD 47 0 = 0x0A ∧
      (∀ j, j < 16 → (m1.getD (31 + j) 0 ≠ m2.getD (31 + j) 0 ↔
        (cstr "ONrsVf7jX6IaSNV6" 17).getD j 0 ≠ (cstr "7WzlgEzqLgwTnWNy" 17).getD j 0)) :=
  jooki_create_ndef_frame (cstr "ONrsVf7jX6IaSNV6" 17) (cstr "7WzlgEzqLgwTnWNy" 17)
    (List.replicate 52 0) (List.replicate 52 0) (by decide) (by decide) (by decide) (by decide)

/-- C8, as stated, fails: the 17-byte buffer holding the 3-character token "abc" (what the
decode command passes on for `-d abc`) has string length 3, not 16, and `jooki_create_ndef`
returns success with a 52-byte message carrying `abc` and 13 NUL bytes at offsets 31..46. -/
theorem jooki_create_ndef_short_token :
    strlen (cstr "abc" 17) = 3 ∧ strlen (cstr "abc" 17) ≠ 16 ∧
    (jooki_create_ndef (cstr "abc" 17) (some (List.replicate 52 0))).1 = PM3_SUCCESS ∧
    (jooki_create_ndef (cstr "abc" 17) (some (List.replicate 52 0))).1 ≠ PM3_EINVARG ∧
    (jooki_create_ndef (cstr "abc" 17) (some (List.replicate 52 0))).2 =
      some (ndef_header ++ [0x61, 0x62, 0x63, 0, 0, 0, 0, 0, 0, 0, 0, 0, 0, 0, 0, 0] ++
        ndef_trailer) := by
  decide

/-- C8, amended: `jooki_create_ndef` checks no token length. For every token buffer with at
least 16 readable bytes, whatever its string length, and every output buffer it returns
success and the message carries the first 16 bytes of the buffer at offsets 31..46; its only
failure is the invalid-argument status returned when the output pointer is NULL. -/
theorem jooki_create_ndef_any_token (b64ndef out : List Nat) (hb : 16 ≤ b64ndef.length) :
    (jooki_create_ndef b64ndef (some out)).1 = PM3_SUCCESS ∧
    (∃ msg, (jooki_create_ndef b64ndef (some out)).2 = some msg ∧
      (msg.drop 31).take 16 = b64ndef.take 16) ∧
    jooki_create_ndef b64ndef none = (PM3_EINVARG, none) ∧
    PM3_EINVARG ≠ PM3_SUCCESS := by
  refine ⟨rfl, ⟨_, congrArg Prod.snd (jooki_create_ndef_eq b64ndef out hb), ?_⟩, rfl,
    by decide⟩
  obtain ⟨a0, a1, a2, a3, a4, a5, a6, a7, a8, a9, a10, a11, a12, a13, a14, a15, rest, rfl⟩ :=
    length_ge_sixteen hb
  rfl

/-- Witness of the amended C8 at the buffer of an empty token (string length 0). -/
theorem jooki_create_ndef_any_token_witness :
    (jooki_create_ndef (cstr "" 17) (some (List.replicate 52 0))).1 = PM3_SUCCESS ∧
    (∃ msg, (jooki_create_ndef (cstr "" 17) (some (List.replicate 52 0))).2 = some msg ∧
      (msg.drop 31).take 16 = (cstr "" 17).take 16) ∧
    jooki_create_ndef (cstr "" 17) none = (PM3_EINVARG, none) ∧
    PM3_EINVARG ≠ PM3_SUCCESS :=
  jooki_create_ndef_any_token (cstr "" 17) (List.replicate 52 0) (by decide)

/-- C9 fails on the code: `jooki_decode` returns success for every input, also for the
token "ONrsVf7jX6IaSNV!" whose last character is outside the base64 alphabet. There the
base64 decoder reports an invalid character and leaves the 12 zero bytes of `ndef` as they
were, `jooki_decode` still returns success with the record computed from those zero bytes,
and the decode command hands that record to `jooki_print`, whose figurine code 37 is
outside the label table. -/
theorem jooki_decode_malformed_token :
    (∀ b64 result, (jooki_decode b64 result).1 = PM3_SUCCESS) ∧
    (cstr "ONrsVf7jX6IaSNV!" 17).getD 15 0 ∉ base64_enc_map ∧
    mbedtls_base64_decode (List.replicate JOOKI_PLAIN_LEN 0) JOOKI_PLAIN_LEN
      (cstr "ONrsVf7jX6IaSNV!" 17) 16 =
      (MBEDTLS_ERR_BASE64_INVALID_CHARACTER, 0, List.replicate JOOKI_PLAIN_LEN 0) ∧
    jooki_decode (cstr "ONrsVf7jX6IaSNV!" 17) (List.replicate JOOKI_PLAIN_LEN 0) =
      (PM3_SUCCESS, [0x03, 0x9c, 0x25, 0x6c, 0x25, 0x0b, 0xeb, 0x94, 0x2c, 0x80, 0x45, 0x16]) ∧
    (CmdHF14AJookiDecode (cstr "ONrsVf7jX6IaSNV!" 17) false).1 = PM3_SUCCESS ∧
    (CmdHF14AJookiDecode (cstr "ONrsVf7jX6IaSNV!" 17) false).2.map
      (fun r => (r.tt, r.figure, r.iv, r.uid)) =
      some (37, none, [0x03, 0x9c, 0x25, 0x6c], [0x0b, 0xeb, 0x94, 0x2c, 0x80, 0x45, 0x16]) := by
  refine ⟨fun _ _ => rfl, ?_, ?_, ?_, ?_, ?_⟩ <;> decide

/-- C10: the label table `jooks_figures` has exactly 6 entries; codes 0, 1, 2, 3 and 5 carry
the labels Dragon, Fox, Ghost, Knight and Whale, code 4 carries the placeholder "?", the six
entries are pairwise distinct and none is empty. -/
theorem jooks_figures_table :
    jooks_figures.length = 6 ∧
    jooks_figures.get? 0 = some "Dragon" ∧
    jooks_figures.get? 1 = some "Fox" ∧
    jooks_figures.get? 2 = some "Ghost" ∧
    jooks_figures.get? 3 = some "Knight" ∧
    jooks_figures.get? 4 = some "?" ∧
    jooks_figures.get? 5 = some "Whale" ∧
    jooks_figures.Nodup ∧
    (∀ s ∈ jooks_figures, s ≠ "") := by
  decide

/-- C11 fails on the code: for the token "AAAAAAAAAAAAAAAA", made of alphabet characters
only, `jooki_decode` returns a record whose byte 4 is 37, and the decode command passes
37 to `jooki_printEx`, which indexes the 6-entry table `jooks_figures` with it: the index
is outside the table and no placeholder is substituted. In the self-test, run on the
compiled-in samples, every index is inside the table. -/
theorem jooks_figures_index_out_of_table :
    (∀ c ∈ (cstr "AAAAAAAAAAAAAAAA" 17).take 16, c ∈ base64_enc_map) ∧
    (jooki_decode (cstr "AAAAAAAAAAAAAAAA" 17) (List.replicate JOOKI_PLAIN_LEN 0)).2.getD 4 0
      = 37 ∧
    (CmdHF14AJookiDecode (cstr "AAAAAAAAAAAAAAAA" 17) false).2.map (fun r => (r.tt, r.figure))
      = some (37, none) ∧
    ¬ (37 < jooks_figures.length) ∧
    jooks_figures.get? 37 = none ∧
    (∀ b64 iv tt uid verbose, 6 ≤ tt → (jooki_printEx b64 iv tt uid verbose).figure = none) ∧
    (∀ r ∈ jooki_selftest.2, r.tt < jooks_figures.length ∧ r.figure ≠ none) := by
  refine ⟨by decide, by decide, by decide, by decide, by decide, ?_, by decide⟩
  intro b64 iv tt uid verbose h
  exact List.get?_eq_none.mpr h

/-- C12, as stated, fails: with the self-test flag (`hf jooki encode -t --uid 0401`) the
identifier given on the command line has 2 bytes, not 7, and the command returns success
after the self-test has called `jooki_encode` seven times. -/
theorem CmdHF14AJookiEncode_selftest_short_uid :
    (2 : Int) ≠ JOOKI_UID_LEN ∧
    (CmdHF14AJookiEncode (fun u => (PM3_SUCCESS, u)) [0x04, 0x01, 0, 0, 0, 0, 0] 2
      false true false false false false false false).status = PM3_SUCCESS ∧
    (CmdHF14AJookiEncode (fun u => (PM3_SUCCESS, u)) [0x04, 0x01, 0, 0, 0, 0, 0] 2
      false true false false false false false false).status ≠ PM3_EINVARG ∧
    (CmdHF14AJookiEncode (fun u => (PM3_SUCCESS, u)) [0x04, 0x01, 0, 0, 0, 0, 0] 2
      false true false false false false false false).encode_calls.length = 7 := by
  decide

/-- C12, amended: when the self-test flag is not set and the identifier is given on the
command line (not read from the tag) with a length other than 7 bytes,
`CmdHF14AJookiEncode` returns the invalid-argument status, `jooki_encode` is never called
and nothing is printed. -/
theorem CmdHF14AJookiEncode_wrong_uid_length (ul_read_uid : List Nat → Int × List Nat)
    (uid : List Nat) (ulen : Int) (verbose tt_dragon tt_fox tt_ghost tt_knight tt_whale : Bool)
    (h : ulen ≠ JOOKI_UID_LEN) :
    (CmdHF14AJookiEncode ul_read_uid uid ulen false false verbose tt_dragon tt_fox tt_ghost
      tt_knight tt_whale).status = PM3_EINVARG ∧
    (CmdHF14AJookiEncode ul_read_uid uid ulen false false verbose tt_dragon tt_fox tt_ghost
      tt_knight tt_whale).encode_calls = [] ∧
    (CmdHF14AJookiEncode ul_read_uid uid ulen false false verbose tt_dragon tt_fox tt_ghost
      tt_knight tt_whale).printed = none := by
  unfold CmdHF14AJookiEncode
  simp only [Bool.false_eq_true, if_false, h, ne_eq, not_false_eq_true, if_true]
  split <;> exact ⟨rfl, rfl, rfl⟩

/-- Witness of the amended C12 at `hf jooki encode --uid 0401 --fox`. -/
theorem CmdHF14AJookiEncode_wrong_uid_length_witness :
    (CmdHF14AJookiEncode (fun u => (PM3_SUCCESS, u)) [0x04, 0x01, 0, 0, 0, 0, 0] 2 false false
      false false true false false false).status = PM3_EINVARG ∧
    (CmdHF14AJookiEncode (fun u => (PM3_SUCCESS, u)) [0x04, 0x01, 0, 0, 0, 0, 0] 2 false false
      false false true false false false).encode_calls = [] ∧
    (CmdHF14AJookiEncode (fun u => (PM3_SUCCESS, u)) [0x04, 0x01, 0, 0, 0, 0, 0] 2 false false
      false false true false false false).printed = none :=
  CmdHF14AJookiEncode_wrong_uid_length (fun u => (PM3_SUCCESS, u)) [0x04, 0x01, 0, 0, 0, 0, 0] 2
    false false true false false false (by decide)

/-- Without the self-test flag the encode command calls `jooki_encode` at most once, with
the fixed iv and the code selected by the flags. -/
theorem CmdHF14AJookiEncode_calls (ul_read_uid : List Nat → Int × List Nat) (uid : List Nat)
    (ulen : Int) (use_tag verbose tt_dragon tt_fox tt_ghost tt_knight tt_whale : Bool) :
    (CmdHF14AJookiEncode ul_read_uid uid ulen use_tag false verbose tt_dragon tt_fox tt_ghost
      tt_knight tt_whale).encode_calls = [] ∨
    ∃ u, (CmdHF14AJookiEncode ul_read_uid uid ulen use_tag false verbose tt_dragon tt_fox
      tt_ghost tt_knight tt_whale).encode_calls =
      [([0x80, 0x77, 0x51, 1],
        if tt_whale then 5 else if tt_knight then 3 else if tt_ghost then 2 else
          if tt_fox then 1 else 0, u)] := by
  unfold CmdHF14AJookiEncode
  simp only [Bool.false_eq_true, if_false]
  split
  · exact Or.inl rfl
  · split
    · split
      · exact Or.inl rfl
      · exact Or.inr ⟨_, rfl⟩
    · split
      · exact Or.inl rfl
      · exact Or.inr ⟨_, rfl⟩

/-- C13, as stated, fails: with the self-test flag (`hf jooki encode -t --dragon --fox`) two
category flags are set and the command returns success after the self-test has called
`jooki_encode` seven times. -/
theorem CmdHF14AJookiEncode_selftest_two_flags :
    (CmdHF14AJookiEncode (fun u => (PM3_SUCCESS, u)) [0, 0, 0, 0, 0, 0, 0] 0
      false true false true true false false false).status = PM3_SUCCESS ∧
    (CmdHF14AJookiEncode (fun u => (PM3_SUCCESS, u)) [0, 0, 0, 0, 0, 0, 0] 0
      false true false true true false false false).status ≠ PM3_EINVARG ∧
    (CmdHF14AJookiEncode (fun u => (PM3_SUCCESS, u)) [0, 0, 0, 0, 0, 0, 0] 0
      false true false true true false false false).encode_calls.length = 7 := by
  decide

/-- C13, amended: when the self-test flag is not set, more than one category flag makes
`CmdHF14AJookiEncode` return the invalid-argument status without calling `jooki_encode`;
with at most one flag every call of `jooki_encode` gets the code 0 for dragon or no flag,
1 for fox, 2 for ghost, 3 for knight and 5 for whale, and with a 7-byte identifier from the
command line there is exactly one such call and the status is success. With or without
the self-test flag, every code passed to `jooki_encode` is one of 0, 1, 2, 3, 5. -/
theorem CmdHF14AJookiEncode_category (ul_read_uid : List Nat → Int × List Nat)
    (uid : List Nat) (ulen : Int)
    (use_tag selftest verbose tt_dragon tt_fox tt_ghost tt_knight tt_whale : Bool) :
    (tt_dragon.toNat + tt_fox.toNat + tt_ghost.toNat + tt_knight.toNat + tt_whale.toNat > 1 →
      (CmdHF14AJookiEncode ul_read_uid uid ulen use_tag false verbose tt_dragon tt_fox tt_ghost
        tt_knight tt_whale).status = PM3_EINVARG ∧
      (CmdHF14AJookiEncode ul_read_uid uid ulen use_tag false verbose tt_dragon tt_fox tt_ghost
        tt_knight tt_whale).encode_calls = []) ∧
    (tt_dragon.toNat + tt_fox.toNat + tt_ghost.toNat + tt_knight.toNat + tt_whale.toNat ≤ 1 →
      ∀ c ∈ (CmdHF14AJookiEncode ul_read_uid uid ulen use_tag false verbose tt_dragon tt_fox
        tt_ghost tt_knight tt_whale).encode_calls,
        (tt_fox = true → c.2.1 = 1) ∧ (tt_ghost = true → c.2.1 = 2) ∧
        (tt_knight = true → c.2.1 = 3) ∧ (tt_whale = true → c.2.1 = 5) ∧
        (tt_fox = false → tt_ghost = false → tt_knight = false → tt_whale = false →
          c.2.1 = 0)) ∧
    (tt_dragon.toNat + tt_fox.toNat + tt_ghost.toNat + tt_knight.toNat + tt_whale.toNat ≤ 1 →
      ulen = JOOKI_UID_LEN →
      (CmdHF14AJookiEncode ul_read_uid uid ulen false false verbose tt_dragon tt_fox tt_ghost
        tt_knight tt_whale).status = PM3_SUCCESS ∧
      ∃ code, (CmdHF14AJookiEncode ul_read_uid uid ulen false false verbose tt_dragon tt_fox
        tt_ghost tt_knight tt_whale).encode_calls = [([0x80, 0x77, 0x51, 1], code, uid)]) ∧
    (∀ c ∈ (CmdHF14AJookiEncode ul_read_uid uid ulen use_tag selftest verbose tt_dragon tt_fox
        tt_ghost tt_knight tt_whale).encode_calls, c.2.1 ∈ [0, 1, 2, 3, 5]) := by
  refine ⟨?_, ?_, ?_, ?_⟩
  · intro h
    unfold CmdHF14AJookiEncode
    simp only [Bool.false_eq_true, if_false, h, if_true, and_self]
  · intro h c hc
    rcases CmdHF14AJookiEncode_calls ul_read_uid uid ulen use_tag verbose tt_dragon tt_fox
      tt_ghost tt_knight tt_whale with h0 | ⟨u, hu⟩
    · rw [h0] at hc
      exact absurd hc (List.not_mem_nil c)
    · rw [hu, List.mem_singleton] at hc
      subst hc
      revert h
      cases tt_dragon <;> cases tt_fox <;> cases tt_ghost <;> cases tt_knight <;>
        cases tt_whale <;> simp
  · intro h hlen
    have h' : ¬ (tt_dragon.toNat + tt_fox.toNat + tt_ghost.toNat + tt_knight.toNat +
        tt_whale.toNat > 1) := by omega
    unfold CmdHF14AJookiEncode
    simp only [Bool.false_eq_true, if_false, h', hlen, ne_eq, not_true_eq_false]
    exact ⟨trivial, _, rfl⟩
  · intro c hc
    cases selftest with
    | true =>
      have hall : ∀ c ∈ (jooki_selftest.2.map (fun row => (row.iv, row.tt, row.uid))),
          c.2.1 ∈ [0, 1, 2, 3, 5] := by decide
      exact hall c hc
    | false =>
      rcases CmdHF14AJookiEncode_calls ul_read_uid uid ulen use_tag verbose tt_dragon tt_fox
        tt_ghost tt_knight tt_whale with h0 | ⟨u, hu⟩
      · rw [h0] at hc
        exact absurd hc (List.not_mem_nil c)
      · rw [hu, List.mem_singleton] at hc
        subst hc
        cases tt_fox <;> cases tt_ghost <;> cases tt_knight <;> cases tt_whale <;> simp

/-- Witness of the amended C13 at `hf jooki encode --uid 04010203040506 --whale`. -/
theorem CmdHF14AJookiEncode_category_witness :
    (CmdHF14AJookiEncode (fun u => (PM3_SUCCESS, u)) [0x04, 0x01, 0x02, 0x03, 0x04, 0x05, 0x06] 7
      false false false false false false false true).status = PM3_SUCCESS ∧
    ∃ code, (CmdHF14AJookiEncode (fun u => (PM3_SUCCESS, u))
      [0x04, 0x01, 0x02, 0x03, 0x04, 0x05, 0x06] 7
      false false false false false false false true).encode_calls =
      [([0x80, 0x77, 0x51, 1], code, [0x04, 0x01, 0x02, 0x03, 0x04, 0x05, 0x06])] :=
  (CmdHF14AJookiEncode_category (fun u => (PM3_SUCCESS, u))
    [0x04, 0x01, 0x02, 0x03, 0x04, 0x05, 0x06] 7 false false false false false false false
    true).2.2.1 (by decide) (by decide)

/-- The write loop for `dlen = 52`, written out: 13 iterations, whatever the fuel left. -/
theorem CmdHF14AJookiWrite_loop_52 (resp : Nat → Option Nat) (data pwd : List Nat)
    (has_pwd : Bool) (m : Nat) :
    CmdHF14AJookiWrite_loop resp data pwd 52 has_pwd (m + 14) 0 0 4 0 =
      some ((List.range 13).map (fun k =>
        { request :=
            { blockno := 4 + k, keytype := if has_pwd then 2 else 0,
              cmddata :=
                if has_pwd then
                  memcpy (memcpy (List.replicate 8 0) 0 (data.drop (k * 4)) 4) 4 pwd 4
                else memcpy (List.replicate 8 0) 0 (data.drop (k * 4)) 4 },
          reply := (resp k).map (fun oldarg0 => decide (oldarg0 % 256 ≠ 0)) })) := by
  cases has_pwd <;> simp [CmdHF14AJookiWrite_loop, List.range, List.range.loop]

theorem write_cmddata_nopwd (data : List Nat) (k : Nat) (hk : 4 * k + 4 ≤ data.length) :
    memcpy (List.replicate 8 0) 0 (data.drop (k * 4)) 4 =
      (data.drop (4 * k)).take 4 ++ [0, 0, 0, 0] := by
  have hl : ((data.drop (4 * k)).take 4).length = 4 := by
    rw [List.length_take, List.length_drop]; omega
  rw [Nat.mul_comm k 4]
  simp [memcpy, List.replicate]

theorem write_cmddata_pwd (data pwd : List Nat) (k : Nat) (hk : 4 * k + 4 ≤ data.length)
    (hpwd : pwd.length = 4) :
    memcpy (memcpy (List.replicate 8 0) 0 (data.drop (k * 4)) 4) 4 pwd 4 =
      (data.drop (4 * k)).take 4 ++ pwd := by
  have hl : ((data.drop (4 * k)).take 4).length = 4 := by
    rw [List.length_take, List.length_drop]; omega
  rw [write_cmddata_nopwd data k hk]
  unfold memcpy
  rw [List.take_left' hl, List.drop_append_eq_append_drop, hl,
    List.take_of_length_le (by omega : pwd.length ≤ 4)]
  simp

/-- C14: block writing. For a 52-byte message parsed without error (`dlen = 52`) and any
responses of the device, the write command ends its loop (14 units of fuel are enough,
more change nothing) and returns success after exactly 13 block-write requests; the k-th
is addressed to block 4+k and carries message bytes 4k..4k+3 followed by the 4 password
bytes with key type 2 when `plen = 4`, and by four zero bytes with key type 0 otherwise;
the requests are the same for any other responses. When the parsed data length is not
52 the command returns the invalid-argument status and sends nothing. -/
theorem CmdHF14AJookiWrite_requests (fuel : Nat) (resp : Nat → Option Nat)
    (data pwd : List Nat) (plen : Int) (hfuel : 14 ≤ fuel) (hdata : data.length = 52)
    (hpwd : pwd.length = 4) :
    (∃ steps, CmdHF14AJookiWrite fuel resp 0 data 52 pwd plen = some (PM3_SUCCESS, steps) ∧
      steps.length = 13 ∧
      steps.map (fun s => s.request) = (List.range 13).map (fun k =>
        { blockno := 4 + k, keytype := if plen = 4 then 2 else 0,
          cmddata := (data.drop (4 * k)).take 4 ++ if plen = 4 then pwd else [0, 0, 0, 0] }) ∧
      steps.map (fun s => s.reply) = (List.range 13).map (fun k =>
        (resp k).map (fun oldarg0 => decide (oldarg0 % 256 ≠ 0))) ∧
      ∀ resp', ∃ steps',
        CmdHF14AJookiWrite fuel resp' 0 data 52 pwd plen = some (PM3_SUCCESS, steps') ∧
        steps'.map (fun s => s.request) = steps.map (fun s => s.request)) ∧
    (∀ res dlen, dlen ≠ 52 →
      CmdHF14AJookiWrite fuel resp res data dlen pwd plen = some (PM3_EINVARG, [])) := by
  obtain ⟨m, rfl⟩ : ∃ m, fuel = m + 14 := ⟨fuel - 14, by omega⟩
  have hrun : ∀ r : Nat → Option Nat,
      CmdHF14AJookiWrite (m + 14) r 0 data 52 pwd plen = some (PM3_SUCCESS,
        (List.range 13).map (fun k =>
          { request :=
              { blockno := 4 + k, keytype := if plen = 4 then 2 else 0,
                cmddata := (data.drop (4 * k)).take 4 ++
                  if plen = 4 then pwd else [0, 0, 0, 0] },
            reply := (r k).map (fun oldarg0 => decide (oldarg0 % 256 ≠ 0)) })) := by
    intro r
    unfold CmdHF14AJookiWrite
    simp only [ne_eq, not_true_eq_false, if_false, CmdHF14AJookiWrite_loop_52, Option.map_some']
    refine congrArg (fun l => some (PM3_SUCCESS, l)) ?_
    apply List.map_congr_left
    intro k hk
    have hk' : 4 * k + 4 ≤ data.length := by
      rw [List.mem_range] at hk
      omega
    by_cases hp : plen = 4
    · simp only [hp, decide_True, if_true, write_cmddata_pwd data pwd k hk' hpwd]
    · simp only [hp, decide_False, if_false, Bool.false_eq_true,
        write_cmddata_nopwd data k hk']
  refine ⟨⟨_, hrun resp, ?_, ?_, ?_, ?_⟩, ?_⟩
  · simp
  · rw [List.map_map]
    rfl
  · rw [List.map_map]
    rfl
  · intro resp'
    refine ⟨_, hrun resp', ?_⟩
    rw [List.map_map, List.map_map]
    rfl
  · intro res dlen hd
    unfold CmdHF14AJookiWrite
    by_cases hr : res = 0
    · simp only [hr, ne_eq, not_true_eq_false, if_false, hd, not_false_eq_true, if_true]
    · simp only [ne_eq, hr, not_false_eq_true, if_true]

/-- Witness of C14 at the message 0, 1, ..., 51 with password 01 02 03 04 and a device
that never answers. -/
theorem CmdHF14AJookiWrite_requests_witness :
    (∃ steps, CmdHF14AJookiWrite 14 (fun _ => none) 0 (List.range 52) 52 [1, 2, 3, 4] 4 =
        some (PM3_SUCCESS, steps) ∧
      steps.length = 13 ∧
      steps.map (fun s => s.request) = (List.range 13).map (fun k =>
        { blockno := 4 + k, keytype := if (4 : Int) = 4 then 2 else 0,
          cmddata := ((List.range 52).drop (4 * k)).take 4 ++
            if (4 : Int) = 4 then [1, 2, 3, 4] else [0, 0, 0, 0] }) ∧
      steps.map (fun s => s.reply) = (List.range 13).map (fun k =>
        ((fun _ => none : Nat → Option Nat) k).map (fun oldarg0 => decide (oldarg0 % 256 ≠ 0))) ∧
      ∀ resp', ∃ steps',
        CmdHF14AJookiWrite 14 resp' 0 (List.range 52) 52 [1, 2, 3, 4] 4 =
          some (PM3_SUCCESS, steps') ∧
        steps'.map (fun s => s.request) = steps.map (fun s => s.request)) ∧
    (∀ res dlen, dlen ≠ 52 →
      CmdHF14AJookiWrite 14 (fun _ => none) res (List.range 52) dlen [1, 2, 3, 4] 4 =
        some (PM3_EINVARG, [])) :=
  CmdHF14AJookiWrite_requests 14 (fun _ => none) (List.range 52) [1, 2, 3, 4] 4 (by decide)
    (by decide) (by decide)

/-- C15: decode reads only the first 16 characters. Two input buffers that agree on their
first 16 bytes give the same status and the same result in `jooki_decode`, whatever follows
position 15. -/
theorem jooki_decode_first_sixteen (b1 b2 result : List Nat)
    (h : b1.take 16 = b2.take 16) :
    jooki_decode b1 result = jooki_decode b2 result := by
  unfold jooki_decode mbedtls_base64_decode
  rw [h]

/-- Witness of C15 at the token "ONrsVf7jX6IaSNV6" followed by two different tails. -/
theorem jooki_decode_first_sixteen_witness :
    jooki_decode (cstr "ONrsVf7jX6IaSNV6" 17) (List.replicate 12 0) =
      jooki_decode (cstr "ONrsVf7jX6IaSNV6=tail" 24) (List.replicate 12 0) :=
  jooki_decode_first_sixteen (cstr "ONrsVf7jX6IaSNV6" 17) (cstr "ONrsVf7jX6IaSNV6=tail" 24)
    (List.replicate 12 0) (by decide)

theorem foldl_selftest_rows (table : List jooki_t) (acc : List selftest_row) :
    table.foldl (fun rows j =>
      if strlen j.b64 = 0 then rows else rows ++ [jooki_selftest_body j]) acc =
    acc ++ (table.filter (fun j => decide (strlen j.b64 ≠ 0))).map jooki_selftest_body := by
  induction table generalizing acc with
  | nil => simp
  | cons j js ih =>
    rw [List.foldl_cons, ih]
    by_cases hj : strlen j.b64 = 0
    · simp [hj]
    · simp [hj]

/-- C16: self-test coverage and non-abort. `jooki_selftest` is the self-test loop run on
`jooks` and always returns success; over any sample table the loop reports exactly one
row, in table order, for each sample whose token is non-empty and none for the others,
whatever the comparison flags of the rows are; on `jooks` that is 7 rows, for the 7 tokens
in table order, the 3 samples with an empty token giving none; and a table whose first
sample carries a wrong category and a wrong identifier still gets the row of its second
sample. -/
theorem jooki_selftest_coverage :
    jooki_selftest = (PM3_SUCCESS, jooki_selftest_loop jooks) ∧
    (∀ table : List jooki_t, jooki_selftest_loop table =
      (table.filter (fun j => decide (strlen j.b64 ≠ 0))).map jooki_selftest_body) ∧
    (∀ j : jooki_t, (jooki_selftest_body j).token = j.b64) ∧
    jooki_selftest.2.map (fun r => r.token) =
      [cstr "ruxow8lnn88uyeX+" 17, cstr "ONrsVf7jX6IaSNV6" 17, cstr "Hjjpcx/mZwuveTF+" 17,
       cstr "vEWy0WO9wZNEzEok" 17, cstr "f0axEma+g2WnLGAm" 17, cstr "VZB/OLBwOiM5Mpnp" 17,
       cstr "7WzlgEzqLgwTnWNy" 17] ∧
    jooki_selftest.2.map (fun r => r.token) =
      (jooks.filter (fun j => decide (strlen j.b64 ≠ 0))).map (fun j => j.b64) ∧
    (jooks.filter (fun j => decide (strlen j.b64 = 0))).length = 3 ∧
    (jooki_selftest_loop
      [{ uid := [0, 0, 0, 0, 0, 0, 0], b64 := cstr "ruxow8lnn88uyeX+" 17, tagtype := 0x04 },
       { uid := [0x04, 0x8C, 0xEC, 0xDA, 0xF0, 0x4A, 0x80], b64 := cstr "ONrsVf7jX6IaSNV6" 17,
         tagtype := 0x01 }]).map (fun r => (r.token, r.tt_ok, r.uid_ok)) =
      [(cstr "ruxow8lnn88uyeX+" 17, false, false), (cstr "ONrsVf7jX6IaSNV6" 17, true, true)] := by
  refine ⟨rfl, ?_, fun _ => rfl, by decide, by decide, by decide, by decide⟩
  intro table
  unfold jooki_selftest_loop
  rw [foldl_selftest_rows]
  rfl

theorem base64_enc_dec_value (c v : Nat) (h : base64_dec_value c = some v) :
    base64_enc_char v = c ∧ v < 64 := by
  unfold base64_dec_value at h
  split at h
  · next hlt =>
    have hv : base64_enc_map.indexOf c = v := Option.some.inj h
    have hlt' : base64_enc_map.indexOf c < base64_enc_map.length := hlt
    refine ⟨?_, hv ▸ hlt⟩
    rw [← hv]
    unfold base64_enc_char
    rw [List.getD_eq_getElem _ _ hlt']
    exact List.getElem_indexOf hlt'
  · exact absurd h (by simp)

theorem base64_dec_digits_inv (l : List Nat) :
    ∀ ds, base64_dec_digits l = some ds →
      ds.map base64_enc_char = l ∧ ∀ d ∈ ds, d < 64 := by
  induction l with
  | nil =>
    intro ds h
    have hds : ds = [] := (Option.some.inj h).symm
    subst hds
    exact ⟨rfl, fun d hd => absurd hd (List.not_mem_nil d)⟩
  | cons c cs ih =>
    intro ds h
    unfold base64_dec_digits at h
    split at h
    · next v vs hv hvs =>
      have hds : ds = v :: vs := (Option.some.inj h).symm
      subst hds
      obtain ⟨hc, hlt⟩ := base64_enc_dec_value c v hv
      obtain ⟨hmap, hall⟩ := ih vs hvs
      refine ⟨by rw [List.map_cons, hc, hmap], ?_⟩
      intro d hd
      rcases List.mem_cons.mp hd with rfl | hd'
      · exact hlt
      · exact hall d hd'
    · exact absurd h (by simp)

theorem base64_text_dec_bytes (s0 s1 s2 s3 s4 s5 s6 s7 s8 s9 s10 s11 s12 s13 s14 s15 : Nat)
    (h : ∀ d ∈ [s0, s1, s2, s3, s4, s5, s6, s7, s8, s9, s10, s11, s12, s13, s14, s15], d < 64) :
    base64_text
        (base64_dec_bytes [s0, s1, s2, s3, s4, s5, s6, s7, s8, s9, s10, s11, s12, s13, s14, s15])
      = [s0, s1, s2, s3, s4, s5, s6, s7, s8, s9, s10, s11, s12, s13, s14, s15].map
          base64_enc_char ∧
    ∀ x ∈ base64_dec_bytes
        [s0, s1, s2, s3, s4, s5, s6, s7, s8, s9, s10, s11, s12, s13, s14, s15], x < 256 := by
  simp only [List.mem_cons, List.mem_singleton, forall_eq_or_imp, forall_eq, List.not_mem_nil,
    IsEmpty.forall_iff, implies_true, and_true] at h
  obtain ⟨h0, h1, h2, h3, h4, h5, h6, h7, h8, h9, h10, h11, h12, h13, h14, h15⟩ := h
  constructor
  · simp only [base64_dec_bytes, base64_text, List.map_cons, List.map_nil, List.cons.injEq,
      and_true]
    refine ⟨?_, ?_, ?_, ?_, ?_, ?_, ?_, ?_, ?_, ?_, ?_, ?_, ?_, ?_, ?_, ?_⟩ <;>
      exact congrArg base64_enc_char (by omega)
  · intro x hx
    simp only [base64_dec_bytes, List.mem_cons, List.mem_singleton, List.not_mem_nil,
      or_false] at hx
    rcases hx with h | h | h | h | h | h | h | h | h | h | h | h <;> subst h <;> omega

/-- A 16-character text over the alphabet decodes to 12 bytes whose base64 text it is. -/
theorem base64_decode_alphabet_text (b64 : List Nat) (hlen : 16 ≤ b64.length)
    (halpha : ∀ c ∈ b64.take 16, c ∈ base64_enc_map) :
    ∃ e : List Nat, e.length = 12 ∧
      mbedtls_base64_decode (List.replicate JOOKI_PLAIN_LEN 0) JOOKI_PLAIN_LEN b64 16 =
        (0, 12, e) ∧
      base64_text e = b64.take 16 ∧ ∀ x ∈ e, x < 256 := by
  have h16 : (b64.take 16).length = 16 := by rw [List.length_take]; omega
  obtain ⟨c, cs, hsplit, -⟩ := length_eq_sixteen h16
  have hc : c ≠ 61 := by
    intro hc61
    apply pad_not_mem_enc_map
    rw [← hc61]
    apply halpha
    rw [hsplit]
    simp
  obtain ⟨ds, hds, hdl⟩ := base64_dec_digits_of_mem _ halpha
  obtain ⟨hinv, hlt⟩ := base64_dec_digits_inv _ ds hds
  rw [h16] at hdl
  obtain ⟨-, -, -, s0, s1, s2, s3, s4, s5, s6, s7, s8, s9, s10, s11, s12, s13, s14, s15, rfl⟩ :=
    length_eq_sixteen hdl
  obtain ⟨htext, hbytes⟩ :=
    base64_text_dec_bytes s0 s1 s2 s3 s4 s5 s6 s7 s8 s9 s10 s11 s12 s13 s14 s15 hlt
  refine ⟨base64_dec_bytes [s0, s1, s2, s3, s4, s5, s6, s7, s8, s9, s10, s11, s12, s13, s14, s15],
    rfl, ?_, htext.trans hinv, hbytes⟩
  unfold mbedtls_base64_decode
  have hstrip : base64_strip_pad (b64.take 16) = b64.take 16 := by
    rw [hsplit]
    exact base64_strip_pad_append cs c hc
  rw [hstrip, hds]
  rfl

theorem xor_chain_rev (a k b l : Nat) : a ^^^ k ^^^ b ^^^ l ^^^ k ^^^ (b ^^^ l) = a := by
  apply Nat.eq_of_testBit_eq
  intro i
  simp only [Nat.testBit_xor]
  cases a.testBit i <;> cases k.testBit i <;> cases b.testBit i <;> cases l.testBit i <;> rfl

theorem enc_dec_bytes (e0 e1 e2 e3 e4 e5 e6 e7 e8 e9 e10 e11 : Nat) :
    enc_bytes (e0 ^^^ 0x03) (e1 ^^^ 0x9c) (e2 ^^^ 0x25) (e3 ^^^ 0x6f ^^^ e0 ^^^ 0x03)
      (e4 ^^^ 0xb9 ^^^ e1 ^^^ 0x9c) (e5 ^^^ 0x2e ^^^ e2 ^^^ 0x25) (e6 ^^^ 0xe8 ^^^ e0 ^^^ 0x03)
      (e7 ^^^ 0x08 ^^^ e1 ^^^ 0x9c) (e8 ^^^ 0x09 ^^^ e2 ^^^ 0x25) (e9 ^^^ 0x83 ^^^ e0 ^^^ 0x03)
      (e10 ^^^ 0xd9 ^^^ e1 ^^^ 0x9c) (e11 ^^^ 0x33 ^^^ e2 ^^^ 0x25) =
    [e0, e1, e2, e3, e4, e5, e6, e7, e8, e9, e10, e11] := by
  simp only [enc_bytes, xor_chain_rev, xor_pair]

theorem dec_bytes_lt (e0 e1 e2 e3 e4 e5 e6 e7 e8 e9 e10 e11 : Nat)
    (h : ∀ x ∈ [e0, e1, e2, e3, e4, e5, e6, e7, e8, e9, e10, e11], x < 256) :
    ∀ x ∈ dec_bytes e0 e1 e2 e3 e4 e5 e6 e7 e8 e9 e10 e11, x < 256 := by
  have hx : ∀ a b : Nat, a < 256 → b < 256 → a ^^^ b < 256 := fun a b ha hb =>
    Nat.xor_lt_two_pow (n := 8) ha hb
  simp only [List.mem_cons, List.mem_singleton, forall_eq_or_imp, forall_eq, List.not_mem_nil,
    IsEmpty.forall_iff, implies_true, and_true] at h
  obtain ⟨h0, h1, h2, h3, h4, h5, h6, h7, h8, h9, h10, h11⟩ := h
  intro x hx'
  simp only [dec_bytes, List.mem_cons, List.mem_singleton, List.not_mem_nil, or_false] at hx'
  rcases hx' with h | h | h | h | h | h | h | h | h | h | h | h <;> subst h <;>
    first
      | exact hx _ _ (hx _ _ (hx _ _ (by assumption) (by decide)) (by assumption)) (by decide)
      | exact hx _ _ (by assumption) (by decide)

/-- Re-encoding the record decoded from a token over the alphabet writes the token back. -/
theorem jooki_encode_of_decode (b64 result out : List Nat) (hlen : 16 ≤ b64.length)
    (halpha : ∀ c ∈ b64.take 16, c ∈ base64_enc_map) (hres : result.length = 12) :
    jooki_encode (some ((jooki_decode b64 result).2.take 4))
        ((jooki_decode b64 result).2.getD 4 0)
        (some (((jooki_decode b64 result).2.drop 5).take 7)) (some out) =
      (PM3_SUCCESS, some (b64.take 16 ++ out.drop 16)) ∧
    (jooki_decode b64 result).2.length = 12 ∧
    ∀ x ∈ (jooki_decode b64 result).2, x < 256 := by
  obtain ⟨e, hel, hdec, htext, hlt⟩ := base64_decode_alphabet_text b64 hlen halpha
  obtain ⟨e0, e1, e2, e3, e4, e5, e6, e7, e8, e9, e10, e11, rfl⟩ := length_eq_twelve hel
  have hndef : (mbedtls_base64_decode (List.replicate JOOKI_PLAIN_LEN 0) JOOKI_PLAIN_LEN
      b64 16).2.2 = [e0, e1, e2, e3, e4, e5, e6, e7, e8, e9, e10, e11] :=
    congrArg (fun r => r.2.2) hdec
  have hj := jooki_decode_of_ndef b64 result e0 e1 e2 e3 e4 e5 e6 e7 e8 e9 e10 e11 hndef
    (by omega)
  have hdrop : result.drop 12 = [] := List.drop_of_length_le (by omega)
  rw [hdrop, List.append_nil] at hj
  rw [hj]
  refine ⟨?_, rfl, dec_bytes_lt e0 e1 e2 e3 e4 e5 e6 e7 e8 e9 e10 e11 hlt⟩
  have hcall := jooki_encode_eq (e0 ^^^ 0x03) (e1 ^^^ 0x9c) (e2 ^^^ 0x25)
    (e3 ^^^ 0x6f ^^^ e0 ^^^ 0x03) (e4 ^^^ 0xb9 ^^^ e1 ^^^ 0x9c) (e5 ^^^ 0x2e ^^^ e2 ^^^ 0x25)
    (e6 ^^^ 0xe8 ^^^ e0 ^^^ 0x03) (e7 ^^^ 0x08 ^^^ e1 ^^^ 0x9c) (e8 ^^^ 0x09 ^^^ e2 ^^^ 0x25)
    (e9 ^^^ 0x83 ^^^ e0 ^^^ 0x03) (e10 ^^^ 0xd9 ^^^ e1 ^^^ 0x9c) (e11 ^^^ 0x33 ^^^ e2 ^^^ 0x25)
    out
  rw [enc_dec_bytes, htext] at hcall
  exact hcall

/-- The token written for a record is over the alphabet and decodes to the record. -/
theorem jooki_decode_of_encode (iv uid out result : List Nat) (tagtype : Nat)
    (hiv : iv.length = 4) (huid : uid.length = 7)
    (hivb : ∀ x ∈ iv, x < 256) (htt : tagtype < 256) (huidb : ∀ x ∈ uid, x < 256)
    (hres : result.length = 12) :
    ∃ token, jooki_encode (some iv) tagtype (some uid) (some out) = (PM3_SUCCESS, some token) ∧
      16 ≤ token.length ∧ (∀ c ∈ token.take 16, c ∈ base64_enc_map) ∧
      jooki_decode token result = (PM3_SUCCESS, iv ++ tagtype :: uid) := by
  obtain ⟨i0, i1, i2, i3, rfl⟩ := length_eq_four hiv
  obtain ⟨u0, u1, u2, u3, u4, u5, u6, rfl⟩ := length_eq_seven huid
  simp only [List.mem_cons, List.mem_singleton, forall_eq_or_imp, forall_eq, List.not_mem_nil,
    IsEmpty.forall_iff, implies_true, and_true] at hivb huidb
  obtain ⟨h0, h1, h2, h3⟩ := hivb
  obtain ⟨g0, g1, g2, g3, g4, g5, g6⟩ := huidb
  have hlen : (base64_text (enc_bytes i0 i1 i2 i3 tagtype u0 u1 u2 u3 u4 u5 u6)).length = 16 :=
    rfl
  have hlt := enc_bytes_lt i0 i1 i2 i3 tagtype u0 u1 u2 u3 u4 u5 u6 h0 h1 h2 h3 htt g0 g1 g2 g3
    g4 g5 g6
  refine ⟨_, jooki_encode_eq i0 i1 i2 i3 tagtype u0 u1 u2 u3 u4 u5 u6 out, ?_, ?_, ?_⟩
  · rw [List.length_append, hlen]
    omega
  · rw [List.take_left' hlen]
    exact base64_text_mem _ rfl hlt
  · have hdec := base64_decode_text (enc_bytes i0 i1 i2 i3 tagtype u0 u1 u2 u3 u4 u5 u6)
      (out.drop 16) (List.replicate JOOKI_PLAIN_LEN 0) rfl hlt rfl
    have hndef : (mbedtls_base64_decode (List.replicate JOOKI_PLAIN_LEN 0) JOOKI_PLAIN_LEN
        (base64_text (enc_bytes i0 i1 i2 i3 tagtype u0 u1 u2 u3 u4 u5 u6) ++ out.drop 16) 16).2.2
        = enc_bytes i0 i1 i2 i3 tagtype u0 u1 u2 u3 u4 u5 u6 := congrArg (fun r => r.2.2) hdec
    have hdrop : result.drop 12 = [] := List.drop_of_length_le (by omega)
    rw [jooki_decode_of_ndef _ result _ _ _ _ _ _ _ _ _ _ _ _ hndef (by omega), dec_enc_bytes,
      hdrop]
    rfl

/-- C17: reverse round trip. For every token whose first 16 characters are in the base64
alphabet, `jooki_decode` gives 12 bytes, and `jooki_encode` of its bytes 0..3, byte 4 and
bytes 5..11 writes back exactly those 16 characters; conversely the token written for any
12-byte record is over the alphabet and decodes to the record, so the two functions are
mutually inverse between 12-byte records and such tokens; and in the self-test the
re-encoded token of each of the 7 rows is the sample's token. -/
theorem jooki_encode_decode :
    (∀ b64 result out : List Nat, 16 ≤ b64.length →
      (∀ c ∈ b64.take 16, c ∈ base64_enc_map) → result.length = 12 →
      jooki_encode (some ((jooki_decode b64 result).2.take 4))
          ((jooki_decode b64 result).2.getD 4 0)
          (some (((jooki_decode b64 result).2.drop 5).take 7)) (some out) =
        (PM3_SUCCESS, some (b64.take 16 ++ out.drop 16)) ∧
      (jooki_decode b64 result).2.length = 12 ∧
      ∀ x ∈ (jooki_decode b64 result).2, x < 256) ∧
    (∀ (iv uid out result : List Nat) (tagtype : Nat), iv.length = 4 → uid.length = 7 →
      (∀ x ∈ iv, x < 256) → tagtype < 256 → (∀ x ∈ uid, x < 256) → result.length = 12 →
      ∃ token, jooki_encode (some iv) tagtype (some uid) (some out) =
          (PM3_SUCCESS, some token) ∧
        16 ≤ token.length ∧ (∀ c ∈ token.take 16, c ∈ base64_enc_map) ∧
        jooki_decode token result = (PM3_SUCCESS, iv ++ tagtype :: uid)) ∧
    jooki_selftest.2.length = 7 ∧
    (∀ r ∈ jooki_selftest.2, r.b64 = some r.token) := by
  refine ⟨?_, ?_, by decide, by decide⟩
  · intro b64 result out hlen halpha hres
    exact jooki_encode_of_decode b64 result out hlen halpha hres
  · intro iv uid out result tagtype hiv huid hivb htt huidb hres
    exact jooki_decode_of_encode iv uid out result tagtype hiv huid hivb htt huidb hres

/-- Witness of C17 at the token "7WzlgEzqLgwTnWNy". -/
theorem jooki_encode_decode_witness :
    jooki_encode
        (some ((jooki_decode (cstr "7WzlgEzqLgwTnWNy" 17) (List.replicate 12 0)).2.take 4))
        ((jooki_decode (cstr "7WzlgEzqLgwTnWNy" 17) (List.replicate 12 0)).2.getD 4 0)
        (some (((jooki_decode (cstr "7WzlgEzqLgwTnWNy" 17) (List.replicate 12 0)).2.drop 5).take
          7)) (some (List.replicate 17 0)) =
      (PM3_SUCCESS, some ((cstr "7WzlgEzqLgwTnWNy" 17).take 16 ++ (List.replicate 17 0).drop 16)) ∧
    (jooki_decode (cstr "7WzlgEzqLgwTnWNy" 17) (List.replicate 12 0)).2.length = 12 ∧
    ∀ x ∈ (jooki_decode (cstr "7WzlgEzqLgwTnWNy" 17) (List.replicate 12 0)).2, x < 256 :=
  jooki_encode_decode.1 (cstr "7WzlgEzqLgwTnWNy" 17) (List.replicate 12 0) (List.replicate 17 0)
    (by decide) (by decide) (by decide)

/-- C18: the assembled message is a self-consistent NDEF container. In the message built
by `jooki_create_ndef` the TLV at offset 5 has type 0x03 and length byte 0x29 = 41, and
the terminator 0xFE sits at offset 7 + 41 = 48; the record at offset 7 has header 0xD1,
type length 1, payload length byte 0x25 = 37 and type 'U' (0x55) at offset 10, and its
payload, the 37 bytes at offsets 11..47, is the URI prefix code 0x04, the 19 characters
"s.jooki.rocks/s/?s=", the 16 token bytes and the byte 0x0A. -/
theorem jooki_create_ndef_container (b64ndef out : List Nat) (hb : 16 ≤ b64ndef.length)
    (ho : 52 ≤ out.length) :
    ∃ msg, jooki_create_ndef b64ndef (some out) = (PM3_SUCCESS, some msg) ∧
      msg.length = out.length ∧
      msg.getD 5 0 = 0x03 ∧ msg.getD 6 0 = 0x29 ∧ msg.getD 6 0 = 41 ∧
      7 + msg.getD 6 0 = 48 ∧ msg.getD (7 + msg.getD 6 0) 0 = 0xFE ∧
      msg.getD 7 0 = 0xD1 ∧ msg.getD 8 0 = 1 ∧ msg.getD 9 0 = 0x25 ∧ msg.getD 9 0 = 37 ∧
      msg.getD 10 0 = 0x55 ∧
      11 + msg.getD 9 0 = 48 ∧
      (msg.drop 11).take (msg.getD 9 0) =
        [0x04] ++ "s.jooki.rocks/s/?s=".toList.map Char.toNat ++ b64ndef.take 16 ++ [0x0A] ∧
      ([0x04] ++ "s.jooki.rocks/s/?s=".toList.map Char.toNat ++ b64ndef.take 16 ++
        [0x0A]).length = 37 ∧
      ("s.jooki.rocks/s/?s=".toList.map Char.toNat).length = 19 := by
  have huri : "s.jooki.rocks/s/?s=".toList.map Char.toNat =
      [0x73, 0x2e, 0x6a, 0x6f, 0x6f, 0x6b, 0x69, 0x2e, 0x72, 0x6f, 0x63, 0x6b, 0x73, 0x2f, 0x73,
        0x2f, 0x3f, 0x73, 0x3d] := by decide
  rw [huri]
  refine ⟨_, jooki_create_ndef_eq b64ndef out hb, jooki_create_ndef_length b64ndef out hb ho,
    ?_⟩
  obtain ⟨a0, a1, a2, a3, a4, a5, a6, a7, a8, a9, a10, a11, a12, a13, a14, a15, rest, rfl⟩ :=
    length_ge_sixteen hb
  exact ⟨rfl, rfl, rfl, rfl, rfl, rfl, rfl, rfl, rfl, rfl, rfl, rfl, rfl, rfl⟩

/-- Witness of C18 at the token "VZB/OLBwOiM5Mpnp" and a zeroed 52-byte output. -/
theorem jooki_create_ndef_container_witness :
    ∃ msg, jooki_create_ndef (cstr "VZB/OLBwOiM5Mpnp" 17) (some (List.replicate 52 0)) =
        (PM3_SUCCESS, some msg) ∧
      msg.length = (List.replicate 52 0).length ∧
      msg.getD 5 0 = 0x03 ∧ msg.getD 6 0 = 0x29 ∧ msg.getD 6 0 = 41 ∧
      7 + msg.getD 6 0 = 48 ∧ msg.getD (7 + msg.getD 6 0) 0 = 0xFE ∧
      msg.getD 7 0 = 0xD1 ∧ msg.getD 8 0 = 1 ∧ msg.getD 9 0 = 0x25 ∧ msg.getD 9 0 = 37 ∧
      msg.getD 10 0 = 0x55 ∧
      11 + msg.getD 9 0 = 48 ∧
      (msg.drop 11).take (msg.getD 9 0) =
        [0x04] ++ "s.jooki.rocks/s/?s=".toList.map Char.toNat ++
          (cstr "VZB/OLBwOiM5Mpnp" 17).take 16 ++ [0x0A] ∧
      ([0x04] ++ "s.jooki.rocks/s/?s=".toList.map Char.toNat ++
        (cstr "VZB/OLBwOiM5Mpnp" 17).take 16 ++ [0x0A]).length = 37 ∧
      ("s.jooki.rocks/s/?s=".toList.map Char.toNat).length = 19 :=
  jooki_create_ndef_container (cstr "VZB/OLBwOiM5Mpnp" 17) (List.replicate 52 0) (by decide)
    (by decide)

/-- The result of `jooki_encode` for any iv and uid buffers, which it reads by index. -/
theorem jooki_encode_getD (iv uid out : List Nat) (tagtype : Nat) :
    jooki_encode (some iv) tagtype (some uid) (some out) =
      (PM3_SUCCESS,
        some (base64_text (enc_bytes (iv.getD 0 0) (iv.getD 1 0) (iv.getD 2 0) (iv.getD 3 0)
          tagtype (uid.getD 0 0) (uid.getD 1 0) (uid.getD 2 0) (uid.getD 3 0) (uid.getD 4 0)
          (uid.getD 5 0) (uid.getD 6 0)) ++ out.drop 16)) := by
  rw [← jooki_encode_eq]
  simp only [jooki_encode, List.getD_cons_zero, List.getD_cons_succ]

/-- The first four characters of the token depend on the first three iv bytes only. -/
theorem token_first_four (i0 i1 i2 i3 tt u0 u1 u2 u3 u4 u5 u6 : Nat) (rest : List Nat) :
    (base64_text (enc_bytes i0 i1 i2 i3 tt u0 u1 u2 u3 u4 u5 u6) ++ rest).take 4 =
      [base64_enc_char ((i0 ^^^ 0x03) / 4),
       base64_enc_char (((i0 ^^^ 0x03) % 4) * 16 + (i1 ^^^ 0x9c) / 16),
       base64_enc_char (((i1 ^^^ 0x9c) % 16) * 4 + (i2 ^^^ 0x25) / 64),
       base64_enc_char ((i2 ^^^ 0x25) % 64)] := rfl

theorem token_first_four_fixed_iv :
    [base64_enc_char (((0x80 : Nat) ^^^ 0x03) / 4),
     base64_enc_char ((((0x80 : Nat) ^^^ 0x03) % 4) * 16 + ((0x77 : Nat) ^^^ 0x9c) / 16),
     base64_enc_char ((((0x77 : Nat) ^^^ 0x9c) % 16) * 4 + ((0x51 : Nat) ^^^ 0x25) / 64),
     base64_enc_char (((0x51 : Nat) ^^^ 0x25) % 64)] = "g+t0".toList.map Char.toNat := by
  decide

/-- C19, as stated, fails: with the self-test flag (`hf jooki encode -t`) the first call of
`jooki_encode` made by the encode command has iv AD 70 4D 01, not 80 77 51 01, and the
token it writes is "ruxow8lnn88uyeX+", which does not begin with "g+t0". -/
theorem CmdHF14AJookiEncode_selftest_token :
    (CmdHF14AJookiEncode (fun u => (PM3_SUCCESS, u)) [0, 0, 0, 0, 0, 0, 0] 0
      false true false false false false false false).encode_calls.head? =
      some ([0xAD, 0x70, 0x4D, 0x01], 0x00, [0x04, 0xDA, 0xB7, 0x6A, 0xE7, 0x4C, 0x80]) ∧
    jooki_encode (some [0xAD, 0x70, 0x4D, 0x01]) 0x00
      (some [0x04, 0xDA, 0xB7, 0x6A, 0xE7, 0x4C, 0x80]) (some (List.replicate JOOKI_B64_LEN 0)) =
      (PM3_SUCCESS, some (cstr "ruxow8lnn88uyeX+" 17)) ∧
    (cstr "ruxow8lnn88uyeX+" 17).take 4 = "ruxo".toList.map Char.toNat ∧
    (cstr "ruxow8lnn88uyeX+" 17).take 4 ≠ "g+t0".toList.map Char.toNat := by
  decide

theorem jooki_encode_fixed_iv (uid out : List Nat) (tagtype : Nat) :
    ∃ token, jooki_encode (some [0x80, 0x77, 0x51, 1]) tagtype (some uid) (some out) =
        (PM3_SUCCESS, some token) ∧
      token.take 4 = "g+t0".toList.map Char.toNat := by
  refine ⟨_, jooki_encode_getD _ _ _ _, ?_⟩
  simp only [List.getD_cons_zero, List.getD_cons_succ]
  rw [token_first_four, token_first_four_fixed_iv]

/-- What the encode command prints without the self-test flag begins with "g+t0". -/
theorem CmdHF14AJookiEncode_printed (ul_read_uid : List Nat → Int × List Nat) (uid : List Nat)
    (ulen : Int) (use_tag verbose tt_dragon tt_fox tt_ghost tt_knight tt_whale : Bool)
    (r : print_row)
    (h : (CmdHF14AJookiEncode ul_read_uid uid ulen use_tag false verbose tt_dragon tt_fox
      tt_ghost tt_knight tt_whale).printed = some r) :
    r.b64.take 4 = "g+t0".toList.map Char.toNat := by
  have key : ∀ (u : List Nat) (tt : Nat),
      ((jooki_printEx ((jooki_encode (some [0x80, 0x77, 0x51, 1]) tt (some u)
        (some (List.replicate JOOKI_B64_LEN 0))).2.getD []) [0x80, 0x77, 0x51, 1] tt u
          verbose).b64).take 4 = "g+t0".toList.map Char.toNat := by
    intro u tt
    obtain ⟨token, htok, hpre⟩ := jooki_encode_fixed_iv u (List.replicate JOOKI_B64_LEN 0) tt
    rw [htok]
    exact hpre
  unfold CmdHF14AJookiEncode at h
  simp only [Bool.false_eq_true, if_false] at h
  split at h
  · exact absurd h (by simp)
  · split at h
    · split at h
      · exact absurd h (by simp)
      · rw [← Option.some.inj h]
        exact key _ _
    · split at h
      · exact absurd h (by simp)
      · rw [← Option.some.inj h]
        exact key _ _

/-- C19, amended: the first 4 characters of the token written by `jooki_encode` depend only
on iv[0], iv[1], iv[2], not on iv[3], the tagtype or the uid; with iv = 80 77 51 01 they
are "g+t0" for every uid and every tagtype; and when the self-test flag is not set, every
call of `jooki_encode` made by the encode command uses iv = 80 77 51 01 and every token it
prints begins with "g+t0". -/
theorem jooki_encode_token_head :
    (∀ (iv iv' uid uid' out out' : List Nat) (tagtype tagtype' : Nat),
      iv.length = 4 → iv'.length = 4 → iv.take 3 = iv'.take 3 →
      ∃ token token',
        jooki_encode (some iv) tagtype (some uid) (some out) = (PM3_SUCCESS, some token) ∧
        jooki_encode (some iv') tagtype' (some uid') (some out') = (PM3_SUCCESS, some token') ∧
        token.take 4 = token'.take 4) ∧
    (∀ (uid out : List Nat) (tagtype : Nat),
      ∃ token, jooki_encode (some [0x80, 0x77, 0x51, 0x01]) tagtype (some uid) (some out) =
          (PM3_SUCCESS, some token) ∧
        token.take 4 = "g+t0".toList.map Char.toNat) ∧
    (∀ (ul_read_uid : List Nat → Int × List Nat) (uid : List Nat) (ulen : Int)
      (use_tag verbose tt_dragon tt_fox tt_ghost tt_knight tt_whale : Bool),
      (∀ c ∈ (CmdHF14AJookiEncode ul_read_uid uid ulen use_tag false verbose tt_dragon tt_fox
        tt_ghost tt_knight tt_whale).encode_calls, c.1 = [0x80, 0x77, 0x51, 0x01]) ∧
      (∀ r, (CmdHF14AJookiEncode ul_read_uid uid ulen use_tag false verbose tt_dragon tt_fox
        tt_ghost tt_knight tt_whale).printed = some r →
        r.b64.take 4 = "g+t0".toList.map Char.toNat)) := by
  refine ⟨?_, jooki_encode_fixed_iv, ?_⟩
  · intro iv iv' uid uid' out out' tagtype tagtype' hiv hiv' htake
    obtain ⟨a, b, c, d, rfl⟩ := length_eq_four hiv
    obtain ⟨a', b', c', d', rfl⟩ := length_eq_four hiv'
    simp only [List.take_succ_cons, List.take_zero, List.cons.injEq, and_true] at htake
    obtain ⟨rfl, rfl, rfl⟩ := htake
    refine ⟨_, _, jooki_encode_getD _ _ _ _, jooki_encode_getD _ _ _ _, ?_⟩
    simp only [List.getD_cons_zero, List.getD_cons_succ]
    rw [token_first_four, token_first_four]
  · intro ul_read_uid uid ulen use_tag verbose tt_dragon tt_fox tt_ghost tt_knight tt_whale
    refine ⟨?_, fun r h => CmdHF14AJookiEncode_printed ul_read_uid uid ulen use_tag verbose
      tt_dragon tt_fox tt_ghost tt_knight tt_whale r h⟩
    intro c hc
    rcases CmdHF14AJookiEncode_calls ul_read_uid uid ulen use_tag verbose tt_dragon tt_fox
      tt_ghost tt_knight tt_whale with h0 | ⟨u, hu⟩
    · rw [h0] at hc
      exact absurd hc (List.not_mem_nil c)
    · rw [hu, List.mem_singleton] at hc
      rw [hc]

/-- Witness of the amended C19 at `hf jooki encode --uid 04010203040506 --ghost`. -/
theorem jooki_encode_token_head_witness :
    ((jooki_printEx ((jooki_encode (some [0x80, 0x77, 0x51, 1]) 2
        (some [0x04, 0x01, 0x02, 0x03, 0x04, 0x05, 0x06])
        (some (List.replicate JOOKI_B64_LEN 0))).2.getD []) [0x80, 0x77, 0x51, 1] 2
        [0x04, 0x01, 0x02, 0x03, 0x04, 0x05, 0x06] false).b64).take 4 =
      "g+t0".toList.map Char.toNat :=
  (jooki_encode_token_head.2.2 (fun u => (PM3_SUCCESS, u))
    [0x04, 0x01, 0x02, 0x03, 0x04, 0x05, 0x06] 7 false false false false true false false).2 _
    (by decide)

end Jooki
